import Mathlib

/-!
MM-ToF10 driver (MM-ToF10.h / MM-ToF10.cpp).

A shallow embedding of the frame protocol engine of the MM-ToF10 time-of-flight
sensor driver: command encoding, synchronisation, frame validation, the
acquisition loop and the measurement decoders.

Modelling conventions.
* A byte is a `Nat` kept below 256; the fixed array `uint8_t buffer[256]` is a
  `List Nat`, and a read of `buffer[i]` is `buffer[i]?`, so that a read outside
  the array shows up as `none`.
* `int32_t` is an `Int` obtained from a 32-bit pattern by `toInt32`; `>>` on it
  is the arithmetic shift `Int.shiftRight` and `&` is `Int.land`.
* A `float` or `double` value is the rational number it denotes (`ℚ`).  The
  range expression of `get1d` and `get3d` is evaluated as IEEE 754 arithmetic
  does, every operation rounded to nearest, ties to even: the product and the
  sum to the 53 significant bits of a `double`, the result to the 24 of a
  `float` (`round_sig`).  The intensity expression of `get1p` needs no
  rounding: its values have at most 12 significant bits.
* The SPI bus and `delay` are the environment.  The bytes the device shifts in
  are a stream `miso : Nat → Nat`; every bus operation, delay and `printf` is
  appended to `trace`.
* `while (1)` in `get_data` is iterated by a fuel argument; the bounded loops
  are total functions.
-/

namespace MMToF10

/-! ## Constants and enumerations -/

@[reducible] def MMToF10_COLSIZE : Nat := 8

@[reducible] def MMToF10_ROWSIZE : Nat := 4

@[reducible] def MMToF10_PIXELS : Nat := MMToF10_COLSIZE * MMToF10_ROWSIZE

@[reducible] def MMToF10_DATA_SIZE : Nat := 256

@[reducible] def BYTE_MASK : Nat := 0xFF

@[reducible] def MAGIC_HEADER : Nat := 0xeb

@[reducible] def MAGIC_TAILER : Nat := 0xed

/-- The macro `OFFSET_3D` defined inside `get3d`. -/
@[reducible] def OFFSET_3D : Nat := 4 + 4 + 2

/-- Size in bytes of `uint32_t`. -/
@[reducible] def sizeof_uint32_t : Nat := 4

/-- Size in bytes of `uint16_t`. -/
@[reducible] def sizeof_uint16_t : Nat := 2

inductive MMToF10_Command where
  | ModeCommand
  | LowSpeedCommand
  | HighSpeedCommand
  | DistanceCommand
  | LedRedCommand
  | LedGreenCommand
  | LedBlueCommand
  | StandbyCommand
  deriving DecidableEq

/-- Numeric value of a command id. -/
def MMToF10_Command.toNat : MMToF10_Command → Nat
  | .ModeCommand => 0x00
  | .LowSpeedCommand => 0x10
  | .HighSpeedCommand => 0x11
  | .DistanceCommand => 0x12
  | .LedRedCommand => 0xC0
  | .LedGreenCommand => 0xC1
  | .LedBlueCommand => 0xC2
  | .StandbyCommand => 0x80

inductive MMToF10_Mode where
  | NomalMode
  | SyncMode
  deriving DecidableEq

/-- Numeric value of a mode. -/
def MMToF10_Mode.toNat : MMToF10_Mode → Nat
  | .NomalMode => 0x00
  | .SyncMode => 0xff

inductive MMToF10_Distance where
  | ShortDistance
  | LongDistance
  deriving DecidableEq

/-- Numeric value of a distance setting. -/
def MMToF10_Distance.toNat : MMToF10_Distance → Nat
  | .ShortDistance => 0x00
  | .LongDistance => 0x01

inductive MMToF10_Rate where
  | LowSpeed
  | HighSpeed
  deriving DecidableEq

/-- Numeric value of a rate: the enumerators are defined as the speed command ids. -/
def MMToF10_Rate.toNat : MMToF10_Rate → Nat
  | .LowSpeed => MMToF10_Command.LowSpeedCommand.toNat
  | .HighSpeed => MMToF10_Command.HighSpeedCommand.toNat

inductive MMToF10_Power where
  | PowerStandby
  | PowerActive
  deriving DecidableEq

/-- Numeric value of a power setting. -/
def MMToF10_Power.toNat : MMToF10_Power → Nat
  | .PowerStandby => 0x01
  | .PowerActive => 0x00

/-! ## Driver state and environment -/

/-- One observable action of the driver. -/
inductive Event where
  /-- Call `SPI5.transfer(out)`: one byte shifted out. -/
  | transfer (out : Nat)
  /-- Call `SPI5.transfer(buf, n)`: the `n` bytes shifted out. -/
  | transferBuf (out : List Nat)
  /-- Call `delay(ms)`. -/
  | delay (ms : Nat)
  /-- One `printf` call, with its numeric argument. -/
  | printf (arg : Nat)
  deriving DecidableEq

/-- The members of `MMToF10Class` together with the bus environment. -/
structure State where
  /-- The member `uint8_t buffer[MMToF10_DATA_SIZE]`. -/
  buffer : List Nat
  m_mode : MMToF10_Mode
  m_dist : MMToF10_Distance
  m_rate : MMToF10_Rate
  /-- The bytes the device shifts in, by position on the bus. -/
  miso : Nat → Nat
  /-- Number of bytes clocked on the bus so far. -/
  clk : Nat
  /-- Everything the driver has done so far, oldest first. -/
  trace : List Event

/-- Modelled from the spec: the bus collaborator `SPI5.transfer(out)`, which is
not part of the sources.  One byte is shifted out and the byte shifted in is
returned. -/
def spiTransfer (out : Nat) (s : State) : Nat × State :=
  (s.miso s.clk % 256,
    { s with clk := s.clk + 1, trace := s.trace ++ [Event.transfer out] })

/-- The `n` bytes shifted in by a buffer transfer that starts at bus position `p`. -/
def received (miso : Nat → Nat) (p n : Nat) : List Nat :=
  (List.range n).map (fun k => miso (p + k) % 256)

/-- Modelled from the spec: the bus collaborator `SPI5.transfer(buffer, n)`,
which is not part of the sources.  The first `n` bytes of the buffer are
shifted out and are overwritten in place with the bytes shifted in. -/
def spiTransferBuf (n : Nat) (s : State) : State :=
  { s with
    buffer := received s.miso s.clk n ++ s.buffer.drop n
    clk := s.clk + n
    trace := s.trace ++ [Event.transferBuf (s.buffer.take n)] }

/-- Modelled from the spec: the timing collaborator `delay(ms)`. -/
def delay (ms : Nat) (s : State) : State :=
  { s with trace := s.trace ++ [Event.delay ms] }

/-- A call of `printf` with one numeric argument. -/
def printf (arg : Nat) (s : State) : State :=
  { s with trace := s.trace ++ [Event.printf arg] }

/-! ## Commands and synchronisation -/

/-- Method `MMToF10Class::skip(int cnt)`. -/
def skip (cnt : Int) (s : State) : State :=
  if _h : 0 < cnt then skip (cnt - 1) (spiTransfer 0 s).2 else s
termination_by cnt.toNat
decreasing_by omega

/-- Method `MMToF10Class::skip()`: the overload without argument. -/
def skip_void (s : State) : State :=
  let r := spiTransfer 0 s
  let cnt : Int := ((r.1 &&& BYTE_MASK : Nat) : Int)
  skip cnt r.2

/-- The buffer `send` has built when it starts the transfer (the `memset` and
the five assignments). -/
def send_fill (cmd val : Nat) : List Nat :=
  (((((List.replicate MMToF10_DATA_SIZE 0).set 0 MAGIC_HEADER).set 1 (cmd % 256)).set 2
    0x01).set 3 (val % 256)).set 4 MAGIC_TAILER

/-- Method `MMToF10Class::send(uint8_t cmd, uint8_t val)`. -/
def send (cmd val : Nat) (s : State) : State :=
  let s1 := { s with buffer := send_fill cmd val }
  let s2 := spiTransferBuf 5 s1
  skip ((MMToF10_DATA_SIZE : Int) - 5) s2

/-- Method `MMToF10Class::led`. -/
def led (r g b : Nat) (s : State) : State :=
  let s1 := send MMToF10_Command.LedBlueCommand.toNat b s
  let s2 := send MMToF10_Command.LedRedCommand.toNat r s1
  send MMToF10_Command.LedGreenCommand.toNat g s2

/-- Method `MMToF10Class::setMode`. -/
def setMode (mode : MMToF10_Mode) (s : State) : State :=
  let s1 := { s with m_mode := mode }
  let s2 := skip MMToF10_DATA_SIZE s1
  let s3 := delay 500 s2
  let s4 := send 0 s3.m_mode.toNat s3
  delay 500 s4

/-- Method `MMToF10Class::sync`. -/
def sync (s : State) : State :=
  let s1 := setMode MMToF10_Mode.SyncMode s
  let s2 := skip MMToF10_DATA_SIZE s1
  skip_void s2

/-- Method `MMToF10Class::nomal`. -/
def nomal (dist : MMToF10_Distance) (rate : MMToF10_Rate) (s : State) : State :=
  let s1 := { s with m_dist := dist, m_rate := rate }
  let s2 := setMode MMToF10_Mode.NomalMode s1
  let s3 := send MMToF10_Command.DistanceCommand.toNat dist.toNat s2
  let s4 := delay 500 s3
  let s5 := skip MMToF10_DATA_SIZE s4
  let s6 := send rate.toNat 0 s5
  let s7 := delay 500 s6
  skip MMToF10_DATA_SIZE s7

/-! ## Validation and acquisition -/

/-- Method `MMToF10Class::check_magic`.  The call of `mmtof10_printf` expands to
nothing; the four `printf` calls are recorded. -/
def check_magic (s : State) : Option (Bool × State) := do
  let b0 ← s.buffer[0]?
  if b0 ≠ 0xe9 then
    let s1 := printf b0 s
    let b1 ← s.buffer[1]?
    let s2 := printf b1 s1
    let b2 ← s.buffer[2]?
    let s3 := printf b2 s2
    let b3 ← s.buffer[3]?
    let s4 := printf b3 s3
    some (false, s4)
  else
    some (true, s)

/-- Method `MMToF10Class::check_sequence_id`.  The call of `mmtof10_printf` expands to
nothing. -/
def check_sequence_id (s : State) : Option Bool := do
  let b1 ← s.buffer[1]?
  let b255 ← s.buffer[255]?
  if b1 ≠ b255 then
    some false
  else
    some true

/-- One pass through the body of the `while (1)` loop of `get_data`: the
Boolean tells whether the pass ended in `break` (`true`) or `continue`. -/
def get_data_iter (s : State) : Option (Bool × State) := do
  let s1 := spiTransferBuf MMToF10_DATA_SIZE s
  let (result, s2) ← check_magic s1
  if !result then
    let s3 := sync s2
    let s4 := nomal MMToF10_Distance.ShortDistance MMToF10_Rate.LowSpeed s3
    some (false, s4)
  else
    let result ← check_sequence_id s2
    if !result then
      some (false, s2)
    else
      some (true, s2)

/-- Method `MMToF10Class::get_data`, the loop run for at most `fuel` passes: `none`
when the loop has not left through `break` within `fuel` passes. -/
def get_data : Nat → State → Option State
  | 0, _ => none
  | fuel + 1, s =>
    match get_data_iter s with
    | none => none
    | some (true, s1) => some s1
    | some (false, s1) => get_data fuel s1

/-! ## Measurement decoding -/

/-- Conversion of a 32-bit pattern to `int32_t`. -/
def toInt32 (n : Nat) : Int :=
  if n % 2 ^ 32 < 2 ^ 31 then ((n % 2 ^ 32 : Nat) : Int) else ((n % 2 ^ 32 : Nat) : Int) - 2 ^ 32

/-- The expression `(b0 << 24) | (b1 << 16) | (b2 << 8) | b3` stored in an `int32_t`. -/
def raw32 (b0 b1 b2 b3 : Nat) : Int :=
  toInt32 ((b0 <<< 24) ||| (b1 <<< 16) ||| (b2 <<< 8) ||| b3)

/-- The integer nearest to `n / d`, the even one of the two when `n / d` lies
half way: rounding to nearest, ties to even. -/
def rne_div (n d : Nat) : Nat :=
  let q := n / d
  let r := n % d
  if 2 * r < d then q else if d < 2 * r then q + 1 else if q % 2 = 0 then q else q + 1

/-- The number of binary digits of `n`, found by halving `n` at most `fuel` times. -/
def bitlen_aux : Nat → Nat → Nat
  | 0, _ => 0
  | fuel + 1, n => if n = 0 then 0 else bitlen_aux fuel (n / 2) + 1

/-- The number of binary digits of `n`: 0 for 0, and `b` for `2^(b-1) ≤ n < 2^b`. -/
def bitlen (n : Nat) : Nat :=
  bitlen_aux n n

/-- Rounding of `n` to `p` significant bits, to nearest, ties to even: `n` itself
when it has at most `p` binary digits, else the nearest multiple of
`2^(bitlen n - p)`.  For a real number `n * 2^(-65)` in the normal range of a
binary floating-point format with `p` significant bits, this is the numerator of
the nearest value of the format. -/
def round_sig (p n : Nat) : Nat :=
  if bitlen n ≤ p then n else rne_div n (2 ^ (bitlen n - p)) * 2 ^ (bitlen n - p)

/-- Number of significant bits of a `double` (IEEE 754 binary64). -/
@[reducible] def DBL_MANT_DIG : Nat := 53

/-- Number of significant bits of a `float` (IEEE 754 binary32). -/
@[reducible] def FLT_MANT_DIG : Nat := 24

/-- The `double` literal `0.00023842`, in units of `2^(-65)`: the decimal
`23842 / 10^8` lies between `2^(-13)` and `2^(-12)`, where consecutive doubles
are `2^(-65)` apart, and the literal denotes the nearest of them. -/
def double_00023842 : Nat :=
  rne_div (23842 * 2 ^ 65) (10 ^ 8)

/-- The `double` product `l * 0.00023842` of an `int` `l ≥ 0` (converted to
`double` without error) and the literal, in units of `2^(-65)`. -/
def dmul_00023842 (l : Nat) : Nat :=
  round_sig DBL_MANT_DIG (l * double_00023842)

/-- The `double` sum `a + x` of an `int` `a ≥ 0` (converted to `double` without
error) and a `double` `x ≥ 0` given in units of `2^(-65)`, in the same units. -/
def dadd_int (a x : Nat) : Nat :=
  round_sig DBL_MANT_DIG (a * 2 ^ 65 + x)

/-- The conversion of a `double` `x ≥ 0` to `float`, both in units of `2^(-65)`. -/
def double_to_float (x : Nat) : Nat :=
  round_sig FLT_MANT_DIG x

/-- The expression `(((raw >> 22) & 0x1ff) * 1000) + (raw & 0x3fffff) * 0.00023842`
of `get1d` and `get3d`, stored in a `float`.  Both integer operands are
non-negative `int`s; the product and the sum are `double` operations and the
store narrows the sum to `float`.  Every intermediate value is a multiple of
`2^(-65)` and is carried as its numerator. -/
def range_value (raw : Int) : ℚ :=
  let a : Nat := (Int.land (Int.shiftRight raw 22) 0x1ff * 1000).toNat
  let l : Nat := (Int.land raw 0x3fffff).toNat
  let data : Nat := double_to_float (dadd_int a (dmul_00023842 l))
  (data : ℚ) / 2 ^ 65

/-- Method `MMToF10Class::get1d`. -/
def get1d (fuel : Nat) (s : State) : Option (ℚ × State) := do
  let s1 ← get_data fuel s
  let b4 ← s1.buffer[4]?
  let b5 ← s1.buffer[5]?
  let b6 ← s1.buffer[6]?
  let b7 ← s1.buffer[7]?
  let raw := raw32 b4 b5 b6 b7
  let data := range_value raw
  some (data, s1)

/-- The expression `((hi << 8) | lo) / 0x10` stored in a `uint16_t`. -/
def raw16 (hi lo : Nat) : Nat :=
  (((hi <<< 8) ||| lo) / 0x10) % 2 ^ 16

/-- Method `MMToF10Class::get1p`. -/
def get1p (fuel : Nat) (s : State) : Option (ℚ × State) := do
  let s1 ← get_data fuel s
  let b8 ← s1.buffer[8]?
  let b9 ← s1.buffer[9]?
  let raw := raw16 b8 b9
  let data : ℚ := ((raw >>> 4 : Nat) : ℚ) + ((raw &&& 0xf : Nat) : ℚ) * (0.0625 : ℚ)
  some (data, s1)

/-- The `for` loop of `get3d`: `i` is the loop variable, `p` the offset of
`ptr` from its initial value and `out` the memory `ptr` points into. -/
def get3d_loop (buffer : List Nat) (i p : Nat) (out : Nat → ℚ) : Option (Nat → ℚ) :=
  if _h : i < MMToF10_PIXELS * sizeof_uint32_t + OFFSET_3D then do
    let b0 ← buffer[i]?
    let b1 ← buffer[i + 1]?
    let b2 ← buffer[i + 2]?
    let b3 ← buffer[i + 3]?
    let raw := raw32 b0 b1 b2 b3
    get3d_loop buffer (i + sizeof_uint32_t) (p + 1) (Function.update out p (range_value raw))
  else
    some out
termination_by MMToF10_PIXELS * sizeof_uint32_t + OFFSET_3D - i
decreasing_by
  simp only [MMToF10_PIXELS, MMToF10_COLSIZE, MMToF10_ROWSIZE, sizeof_uint32_t, OFFSET_3D] at *
  omega

/-- Method `MMToF10Class::get3d`: `out` is the memory behind `ptr` before the call, the
result the memory after it. -/
def get3d (fuel : Nat) (out : Nat → ℚ) (s : State) : Option ((Nat → ℚ) × State) := do
  let s1 ← get_data fuel s
  let out1 ← get3d_loop s1.buffer OFFSET_3D 0 out
  some (out1, s1)

/-- The `for` loop of `get3p`: `i` is the loop variable, `p` the offset of
`ptr` from its initial value and `out` the `uint16_t` memory `ptr` points into. -/
def get3p_loop (buffer : List Nat) (i p : Nat) (out : Nat → Nat) : Option (Nat → Nat) :=
  if _h : i < MMToF10_PIXELS * sizeof_uint16_t + MMToF10_PIXELS * sizeof_uint32_t + OFFSET_3D
  then do
    let b0 ← buffer[i]?
    let b1 ← buffer[i + 1]?
    get3p_loop buffer (i + sizeof_uint16_t) (p + 1) (Function.update out p (raw16 b0 b1))
  else
    some out
termination_by MMToF10_PIXELS * sizeof_uint16_t + MMToF10_PIXELS * sizeof_uint32_t + OFFSET_3D - i
decreasing_by
  simp only [MMToF10_PIXELS, MMToF10_COLSIZE, MMToF10_ROWSIZE, sizeof_uint16_t, sizeof_uint32_t,
    OFFSET_3D] at *
  omega

/-- Method `MMToF10Class::get3p`: `out` is the memory behind `ptr` before the
call, the result the memory after it. -/
def get3p (fuel : Nat) (out : Nat → Nat) (s : State) : Option ((Nat → Nat) × State) := do
  let s1 ← get_data fuel s
  let out1 ← get3p_loop s1.buffer (4 * 8 * 4 + 10) 0 out
  some (out1, s1)

/-- The expression `(raw >> 4) + (raw & 0xf) * 0.0625` of `get1p`, as a function
of the `uint16_t` value `raw`. -/
def intensity_value (raw : Nat) : ℚ :=
  ((raw >>> 4 : Nat) : ℚ) + ((raw &&& 0xf : Nat) : ℚ) * (0.0625 : ℚ)

/-! ## Vocabulary of the statements -/

/-- Run of `n` single-byte transfers of `0x00`, the discards issued by `skip`. -/
def discards (n : Nat) : List Event :=
  List.replicate n (Event.transfer 0)

/-- Bus operations of one command frame: the five-byte buffer transfer followed
by the 251 padding bytes. -/
def frame_events (cmd val : Nat) : List Event :=
  Event.transferBuf [0xEB, cmd, 0x01, val, 0xED] :: discards 251

/-- Bus operations and delays of `setMode(mode)`. -/
def setMode_events (mode : MMToF10_Mode) : List Event :=
  discards 256 ++ [Event.delay 500] ++ frame_events 0 mode.toNat ++ [Event.delay 500]

/-- Bus operations and delays of `sync()` when the length byte read by `skip()` is `n`. -/
def sync_events (n : Nat) : List Event :=
  setMode_events MMToF10_Mode.SyncMode ++ discards 256 ++ discards (1 + n)

/-- Bus operations and delays of `nomal(dist, rate)`. -/
def nomal_events (dist : MMToF10_Distance) (rate : MMToF10_Rate) : List Event :=
  setMode_events MMToF10_Mode.NomalMode
    ++ frame_events 0x12 dist.toNat ++ [Event.delay 500] ++ discards 256
    ++ frame_events rate.toNat 0 ++ [Event.delay 500] ++ discards 256

/-- The bytes shifted out on the bus by a sequence of events, in order. -/
def mosi : List Event → List Nat
  | [] => []
  | Event.transfer out :: t => out :: mosi t
  | Event.transferBuf out :: t => out ++ mosi t
  | Event.delay _ :: t => mosi t
  | Event.printf _ :: t => mosi t

/-- The events a call `f` appends to the trace of `s`. -/
def emitted (f : State → State) (s : State) : List Event :=
  (f s).trace.drop s.trace.length

/-- The single-byte transfers among a sequence of events, in order. -/
def discardOps (t : List Event) : List Event :=
  t.filter (fun e => match e with
    | Event.transfer _ => true
    | _ => false)

/-- The 32-bit big-endian value of four bytes. -/
def be32 (b0 b1 b2 b3 : Nat) : Nat :=
  2 ^ 24 * b0 + 2 ^ 16 * b1 + 2 ^ 8 * b2 + b3

/-- The 16-bit big-endian value of two bytes. -/
def be16 (hi lo : Nat) : Nat :=
  2 ^ 8 * hi + lo

/-- The range rule as the specification words it, on the unsigned raw value `r`,
in exact rational arithmetic:
`((r >> 22) & 0x1FF) * 1000 + (r & 0x3FFFFF) * 0.00023842`. -/
def decodeRange (r : Nat) : ℚ :=
  ((((r >>> 22) &&& 0x1FF) * 1000 : Nat) : ℚ) + ((r &&& 0x3FFFFF : Nat) : ℚ) * (0.00023842 : ℚ)

/-- The range rule evaluated in floating point as the code evaluates it, on the
unsigned raw value `r`: `(r & 0x3FFFFF) * 0.00023842` rounded to `double`, added
to `((r >> 22) & 0x1FF) * 1000` and rounded to `double`, then narrowed to
`float`. -/
def decodeRangeFloat (r : Nat) : ℚ :=
  ((double_to_float (dadd_int (((r >>> 22) &&& 0x1FF) * 1000)
    (dmul_00023842 (r &&& 0x3FFFFF))) : Nat) : ℚ) / 2 ^ 65

/-- The intensity rule as the specification words it: with `q = r / 16`,
`(q >> 4) + (q & 0xF) * 0.0625`. -/
def decodeIntensity (r : Nat) : ℚ :=
  ((((r / 16) >>> 4 : Nat) : ℚ)) + ((((r / 16) &&& 0xF : Nat) : ℚ)) * (0.0625 : ℚ)

/-- A driver state for the examples: an all-zero buffer, nothing clocked yet,
and the device answering with the bytes `miso`. -/
def idle (miso : Nat → Nat) : State :=
  { buffer := List.replicate 256 0
    m_mode := MMToF10_Mode.SyncMode
    m_dist := MMToF10_Distance.ShortDistance
    m_rate := MMToF10_Rate.LowSpeed
    miso := miso
    clk := 0
    trace := [] }

/-- A device that answers with a well-formed frame from position 0: magic
`0xE9`, sequence bytes 0, range field `00 40 00 00`, intensity field `00 30`,
first grid cell `00 80 00 01`. -/
def goodLine (i : Nat) : Nat :=
  if i = 0 then 0xE9 else if i = 5 then 0x40 else if i = 9 then 0x30
  else if i = 11 then 0x80 else if i = 13 then 0x01 else 0

/-- A device that answers `0x00` to every byte. -/
def zeroLine (_i : Nat) : Nat := 0

/-- A device whose first frame has the right magic byte but sequence bytes 1 and 0. -/
def seqLine (i : Nat) : Nat :=
  if i = 0 then 0xE9 else if i = 1 then 0x01 else 0

/-- A device whose first frame starts with `0xE8`; its sequence bytes agree. -/
def badMagicLine (i : Nat) : Nat :=
  if i = 0 then 0xE8 else 0

/-- A device that answers 2 at bus position 768 and 0 elsewhere. -/
def lenLine (i : Nat) : Nat :=
  if i = 768 then 2 else 0

/-- The payloads of the buffer transfers among a sequence of events, in order. -/
def bufferPayloads : List Event → List (List Nat)
  | [] => []
  | Event.transferBuf out :: t => out :: bufferPayloads t
  | Event.transfer _ :: t => bufferPayloads t
  | Event.delay _ :: t => bufferPayloads t
  | Event.printf _ :: t => bufferPayloads t

/-- A device whose first frame is well formed and carries `12 34` in the first
field of the intensity grid (bytes 138 and 139). -/
def gridLine (i : Nat) : Nat :=
  if i = 0 then 0xE9 else if i = 138 then 0x12 else if i = 139 then 0x34 else 0

/-- The state the loop of `get_data` is in after `n` passes that all ended in
`continue`; `none` when one of them ended in `break`. -/
def get_data_passes : Nat → State → Option State
  | 0, s => some s
  | n + 1, s =>
    match get_data_iter s with
    | some (false, s1) => get_data_passes n s1
    | _ => none

/-- The number of full-frame transfers, buffer transfers of 256 bytes, among a
sequence of events. -/
def fullFrames (t : List Event) : Nat :=
  ((bufferPayloads t).filter (fun p => p.length == 256)).length

/-- The buffer indices `get1d` reads. -/
def get1d_reads : List Nat := [4, 5, 6, 7]

/-- The buffer indices `get1p` reads. -/
def get1p_reads : List Nat := [8, 9]

/-- The buffer indices pass `k` of the loop of `get3d` reads: `i .. i + 3` for
`i = OFFSET_3D + 4 * k`. -/
def get3d_reads_at (k : Nat) : List Nat :=
  [OFFSET_3D + sizeof_uint32_t * k, OFFSET_3D + sizeof_uint32_t * k + 1,
    OFFSET_3D + sizeof_uint32_t * k + 2, OFFSET_3D + sizeof_uint32_t * k + 3]

/-- The buffer indices the `MMToF10_PIXELS` passes of the loop of `get3d` read. -/
def get3d_reads : List Nat :=
  ((List.range MMToF10_PIXELS).map get3d_reads_at).flatten

/-- The buffer indices pass `k` of the loop of `get3p` reads: `i` and `i + 1` for
`i = 4 * 8 * 4 + 10 + 2 * k`. -/
def get3p_reads_at (k : Nat) : List Nat :=
  [4 * 8 * 4 + 10 + sizeof_uint16_t * k, 4 * 8 * 4 + 10 + sizeof_uint16_t * k + 1]

/-- The buffer indices the `MMToF10_PIXELS` passes of the loop of `get3p` read. -/
def get3p_reads : List Nat :=
  ((List.range MMToF10_PIXELS).map get3p_reads_at).flatten

/-- A device whose first frame is well formed and carries `00 00 00 01` in the
range field (bytes 4..7). -/
def lsbLine (i : Nat) : Nat :=
  if i = 0 then 0xE9 else if i = 7 then 0x01 else 0

set_option maxRecDepth 8192

/-! ## Closed forms of the command operations -/

theorem skip_eq (cnt : Int) (s : State) :
    skip cnt s = { s with clk := s.clk + cnt.toNat, trace := s.trace ++ discards cnt.toNat } := by
  generalize hn : cnt.toNat = n
  induction n generalizing cnt s with
  | zero =>
    have hc : ¬ 0 < cnt := by omega
    rw [skip, dif_neg hc]
    simp [discards]
  | succ n ih =>
    have hc : 0 < cnt := by omega
    rw [skip, dif_pos hc, ih (cnt - 1) _ (by omega)]
    simp [spiTransfer, discards, List.replicate_succ, Nat.add_assoc, Nat.add_comm 1 n]

theorem send_fill_eq (cmd val : Nat) :
    send_fill cmd val = [0xEB, cmd % 256, 0x01, val % 256, 0xED] ++ List.replicate 251 0 := by
  rfl

theorem send_eq (cmd val : Nat) (s : State) :
    send cmd val s =
      { s with
        buffer := received s.miso s.clk 5 ++ List.replicate 251 0
        clk := s.clk + 256
        trace := s.trace ++ frame_events (cmd % 256) (val % 256) } := by
  have h251 : ((MMToF10_DATA_SIZE : Int) - 5).toNat = 251 := by decide
  have hd : ([0xEB, cmd % 256, 0x01, val % 256, 0xED] ++ List.replicate 251 0).drop 5
      = List.replicate 251 0 := rfl
  have ht : ([0xEB, cmd % 256, 0x01, val % 256, 0xED] ++ List.replicate 251 0).take 5
      = [0xEB, cmd % 256, 0x01, val % 256, 0xED] := rfl
  simp only [send, skip_eq, spiTransferBuf, send_fill_eq, frame_events, h251, hd, ht,
    Nat.add_assoc, List.append_assoc, List.singleton_append]

theorem mode_toNat_lt (m : MMToF10_Mode) : m.toNat % 256 = m.toNat := by
  cases m <;> rfl

theorem dist_toNat_lt (d : MMToF10_Distance) : d.toNat % 256 = d.toNat := by
  cases d <;> rfl

theorem rate_toNat_lt (r : MMToF10_Rate) : r.toNat % 256 = r.toNat := by
  cases r <;> rfl

theorem setMode_eq (mode : MMToF10_Mode) (s : State) :
    setMode mode s =
      { s with
        buffer := received s.miso (s.clk + 256) 5 ++ List.replicate 251 0
        m_mode := mode
        clk := s.clk + 512
        trace := s.trace ++ setMode_events mode } := by
  have h256 : ((MMToF10_DATA_SIZE : Nat) : Int).toNat = 256 := by decide
  simp only [setMode, skip_eq, send_eq, delay, setMode_events, h256, mode_toNat_lt,
    Nat.zero_mod, Nat.add_assoc, List.append_assoc]

theorem skip_void_eq (s : State) :
    skip_void s =
      { s with
        clk := s.clk + (1 + s.miso s.clk % 256)
        trace := s.trace ++ discards (1 + s.miso s.clk % 256) } := by
  have hm : s.miso s.clk % 256 &&& BYTE_MASK = s.miso s.clk % 256 := by
    have := Nat.and_pow_two_sub_one_eq_mod (s.miso s.clk % 256) 8
    simpa using this
  simp only [skip_void, skip_eq, spiTransfer, hm, Int.toNat_ofNat, Nat.add_assoc,
    List.append_assoc, discards]
  simp [List.replicate_succ, Nat.add_comm 1]

theorem sync_eq (s : State) :
    sync s =
      { s with
        buffer := received s.miso (s.clk + 256) 5 ++ List.replicate 251 0
        m_mode := MMToF10_Mode.SyncMode
        clk := s.clk + (769 + s.miso (s.clk + 768) % 256)
        trace := s.trace ++ sync_events (s.miso (s.clk + 768) % 256) } := by
  have h256 : ((MMToF10_DATA_SIZE : Nat) : Int).toNat = 256 := by decide
  simp only [sync, setMode_eq, skip_eq, skip_void_eq, sync_events, h256,
    Nat.add_assoc, List.append_assoc]
  have e0 : s.clk + (512 + 256) = s.clk + 768 := rfl
  have e1 : s.clk + (512 + (256 + (1 + s.miso (s.clk + 768) % 256)))
      = s.clk + (769 + s.miso (s.clk + 768) % 256) := by omega
  rw [e0, e1]

theorem nomal_eq (dist : MMToF10_Distance) (rate : MMToF10_Rate) (s : State) :
    nomal dist rate s =
      { s with
        buffer := received s.miso (s.clk + 1024) 5 ++ List.replicate 251 0
        m_mode := MMToF10_Mode.NomalMode
        m_dist := dist
        m_rate := rate
        clk := s.clk + 1536
        trace := s.trace ++ nomal_events dist rate } := by
  have h256 : ((MMToF10_DATA_SIZE : Nat) : Int).toNat = 256 := by decide
  simp only [nomal, setMode_eq, skip_eq, send_eq, delay, nomal_events, h256, dist_toNat_lt,
    rate_toNat_lt, Nat.zero_mod, Nat.add_assoc, List.append_assoc, MMToF10_Command.toNat]

/-! ## The acquisition loop -/

theorem received_length (m : Nat → Nat) (p n : Nat) : (received m p n).length = n := by
  simp [received]

theorem received_at (m : Nat → Nat) (p n i : Nat) (rest : List Nat) (h : i < n) :
    (received m p n ++ rest)[i]? = some (m (p + i) % 256) := by
  rw [List.getElem?_append_left (by simpa [received] using h)]
  simp [received, List.getElem?_map, List.getElem?_range h]

theorem frame_at (s : State) (i : Nat) (h : i < 256) :
    (spiTransferBuf MMToF10_DATA_SIZE s).buffer[i]? = some (s.miso (s.clk + i) % 256) := by
  simp only [spiTransferBuf]
  exact received_at _ _ _ _ _ h

theorem check_magic_ok (s : State) (h : s.buffer[0]? = some 0xe9) :
    check_magic s = some (true, s) := by
  simp [check_magic, h]

theorem check_magic_bad (s : State) (b0 b1 b2 b3 : Nat) (h0 : s.buffer[0]? = some b0)
    (h1 : s.buffer[1]? = some b1) (h2 : s.buffer[2]? = some b2) (h3 : s.buffer[3]? = some b3)
    (hne : b0 ≠ 0xe9) :
    check_magic s = some (false, printf b3 (printf b2 (printf b1 (printf b0 s)))) := by
  simp [check_magic, h0, h1, h2, h3, hne, printf]

theorem check_sequence_id_eq (s : State) (b1 b255 : Nat) (h1 : s.buffer[1]? = some b1)
    (h255 : s.buffer[255]? = some b255) :
    check_sequence_id s = some (decide (b1 = b255)) := by
  by_cases h : b1 = b255 <;> simp [check_sequence_id, h1, h255, h]

/-- The state in which `get_data` resumes after a frame with a wrong magic byte. -/
theorem get_data_iter_magic (s : State)
    (h : (spiTransferBuf MMToF10_DATA_SIZE s).buffer[0]? ≠ some 0xe9) :
    get_data_iter s = some (false,
      nomal MMToF10_Distance.ShortDistance MMToF10_Rate.LowSpeed
        (sync (printf (s.miso (s.clk + 3) % 256) (printf (s.miso (s.clk + 2) % 256)
          (printf (s.miso (s.clk + 1) % 256) (printf (s.miso (s.clk + 0) % 256)
            (spiTransferBuf MMToF10_DATA_SIZE s))))))) := by
  have h0 := frame_at s 0 (by decide)
  have h1 := frame_at s 1 (by decide)
  have h2 := frame_at s 2 (by decide)
  have h3 := frame_at s 3 (by decide)
  have hne : s.miso (s.clk + 0) % 256 ≠ 0xe9 := by
    intro hc
    exact h (by rw [h0, hc])
  simp [get_data_iter, check_magic_bad _ _ _ _ _ h0 h1 h2 h3 hne]

theorem get_data_iter_seq (s : State)
    (h0 : (spiTransferBuf MMToF10_DATA_SIZE s).buffer[0]? = some 0xe9)
    (h1 : (spiTransferBuf MMToF10_DATA_SIZE s).buffer[1]?
      ≠ (spiTransferBuf MMToF10_DATA_SIZE s).buffer[255]?) :
    get_data_iter s = some (false, spiTransferBuf MMToF10_DATA_SIZE s) := by
  have e1 := frame_at s 1 (by decide)
  have e255 := frame_at s 255 (by decide)
  have hne : s.miso (s.clk + 1) % 256 ≠ s.miso (s.clk + 255) % 256 := by
    intro hc
    exact h1 (by rw [e1, e255, hc])
  simp [get_data_iter, check_magic_ok _ h0, check_sequence_id_eq _ _ _ e1 e255, hne]

theorem get_data_iter_ok (s : State)
    (h0 : (spiTransferBuf MMToF10_DATA_SIZE s).buffer[0]? = some 0xe9)
    (h1 : (spiTransferBuf MMToF10_DATA_SIZE s).buffer[1]?
      = (spiTransferBuf MMToF10_DATA_SIZE s).buffer[255]?) :
    get_data_iter s = some (true, spiTransferBuf MMToF10_DATA_SIZE s) := by
  have e1 := frame_at s 1 (by decide)
  have e255 := frame_at s 255 (by decide)
  have heq : s.miso (s.clk + 1) % 256 = s.miso (s.clk + 255) % 256 := by
    rw [e1, e255] at h1
    exact Option.some.inj h1
  simp [get_data_iter, check_magic_ok _ h0, check_sequence_id_eq _ _ _ e1 e255, heq]

/-- The state in which the loop of `get_data` resumes after a frame with a wrong
magic byte, in closed form. -/
theorem recovery_eq (s : State) (b0 b1 b2 b3 : Nat) :
    nomal MMToF10_Distance.ShortDistance MMToF10_Rate.LowSpeed
        (sync (printf b3 (printf b2 (printf b1 (printf b0
          (spiTransferBuf MMToF10_DATA_SIZE s))))))
      = { s with
          buffer := received s.miso (s.clk + (2049 + s.miso (s.clk + 1024) % 256)) 5
            ++ List.replicate 251 0
          m_mode := MMToF10_Mode.NomalMode
          m_dist := MMToF10_Distance.ShortDistance
          m_rate := MMToF10_Rate.LowSpeed
          clk := s.clk + (2561 + s.miso (s.clk + 1024) % 256)
          trace := s.trace ++ (Event.transferBuf (s.buffer.take MMToF10_DATA_SIZE)
            :: ([Event.printf b0, Event.printf b1, Event.printf b2, Event.printf b3]
              ++ sync_events (s.miso (s.clk + 1024) % 256)
              ++ nomal_events MMToF10_Distance.ShortDistance MMToF10_Rate.LowSpeed)) } := by
  simp only [nomal_eq, sync_eq, printf, spiTransferBuf, List.append_assoc, Nat.add_assoc,
    List.singleton_append, List.cons_append, List.nil_append]
  have e0 : s.clk + (MMToF10_DATA_SIZE + 768) = s.clk + 1024 := rfl
  rw [e0]
  have e1 : s.clk + (MMToF10_DATA_SIZE + (769 + (s.miso (s.clk + 1024) % 256 + 1024)))
      = s.clk + (2049 + s.miso (s.clk + 1024) % 256) := by
    have : MMToF10_DATA_SIZE = 256 := rfl
    omega
  have e2 : s.clk + (MMToF10_DATA_SIZE + (769 + (s.miso (s.clk + 1024) % 256 + 1536)))
      = s.clk + (2561 + s.miso (s.clk + 1024) % 256) := by
    have : MMToF10_DATA_SIZE = 256 := rfl
    omega
  rw [e1, e2]

/-! ## Bit-level arithmetic of the decoders -/

theorem ldiff_mask (k n : Nat) : Nat.ldiff (2 ^ k - 1) n = 2 ^ k - 1 - n % 2 ^ k := by
  apply Nat.eq_of_testBit_eq
  intro i
  have hlt : n % 2 ^ k < 2 ^ k := Nat.mod_lt _ (Nat.two_pow_pos k)
  have h2 : 2 ^ k - 1 - n % 2 ^ k = 2 ^ k - (n % 2 ^ k + 1) := by omega
  rw [Nat.testBit_ldiff, Nat.testBit_two_pow_sub_one, h2, Nat.testBit_two_pow_sub_succ hlt,
    Nat.testBit_mod_two_pow]
  by_cases h : i < k <;> simp [h]

theorem int_land_mask (x : Int) (k : Nat) :
    Int.land x (((2 ^ k - 1 : Nat) : Int)) = x % (2 ^ k : Int) := by
  have hpos : (0 : Int) < 2 ^ k := by positivity
  cases x with
  | ofNat n =>
    show ((n &&& (2 ^ k - 1) : Nat) : Int) = (n : Int) % 2 ^ k
    rw [Nat.and_pow_two_sub_one_eq_mod]
    norm_cast
  | negSucc n =>
    show ((Nat.ldiff (2 ^ k - 1) n : Nat) : Int) = Int.negSucc n % 2 ^ k
    rw [ldiff_mask, Int.negSucc_emod n hpos]
    have hlt : n % 2 ^ k < 2 ^ k := Nat.mod_lt _ (Nat.two_pow_pos k)
    have h1 : 1 ≤ 2 ^ k := Nat.two_pow_pos k
    push_cast [Nat.sub_sub, Nat.cast_sub (by omega : 1 + n % 2 ^ k ≤ 2 ^ k)]
    omega

theorem be32_eq (b0 b1 b2 b3 : Nat) (h1 : b1 < 256) (h2 : b2 < 256) (h3 : b3 < 256) :
    (b0 <<< 24) ||| (b1 <<< 16) ||| (b2 <<< 8) ||| b3
      = 2 ^ 24 * b0 + 2 ^ 16 * b1 + 2 ^ 8 * b2 + b3 := by
  have e3 : 2 ^ 8 * (2 ^ 16 * b0 + 2 ^ 8 * b1 + b2) + b3
      = 2 ^ 8 * (2 ^ 16 * b0 + 2 ^ 8 * b1 + b2) ||| b3 := Nat.mul_add_lt_is_or (by omega) _
  have e2 : 2 ^ 16 * (2 ^ 8 * b0 + b1) + 2 ^ 8 * b2
      = 2 ^ 16 * (2 ^ 8 * b0 + b1) ||| 2 ^ 8 * b2 := Nat.mul_add_lt_is_or (by omega) _
  have e1 : 2 ^ 24 * b0 + 2 ^ 16 * b1 = 2 ^ 24 * b0 ||| 2 ^ 16 * b1 :=
    Nat.mul_add_lt_is_or (by omega) _
  simp only [Nat.shiftLeft_eq]
  have a3 : 2 ^ 24 * b0 + 2 ^ 16 * b1 + 2 ^ 8 * b2 + b3
      = 2 ^ 8 * (2 ^ 16 * b0 + 2 ^ 8 * b1 + b2) + b3 := by ring
  have a2 : 2 ^ 8 * (2 ^ 16 * b0 + 2 ^ 8 * b1 + b2)
      = 2 ^ 16 * (2 ^ 8 * b0 + b1) + 2 ^ 8 * b2 := by ring
  have a1 : 2 ^ 16 * (2 ^ 8 * b0 + b1) = 2 ^ 24 * b0 + 2 ^ 16 * b1 := by ring
  rw [a3, e3, a2, e2, a1, e1]
  simp only [Nat.mul_comm]

/-! ## Rounding to a number of significant bits -/

theorem bitlen_aux_le (fuel : Nat) : ∀ n B : Nat, n < 2 ^ B → bitlen_aux fuel n ≤ B := by
  induction fuel with
  | zero =>
    intro n B _
    exact Nat.zero_le _
  | succ f ih =>
    intro n B h
    unfold bitlen_aux
    by_cases hn : n = 0
    · rw [if_pos hn]
      exact Nat.zero_le _
    · rw [if_neg hn]
      cases B with
      | zero =>
        rw [Nat.pow_zero] at h
        omega
      | succ B =>
        have h2 : n / 2 < 2 ^ B := by
          rw [Nat.pow_succ] at h
          omega
        exact Nat.succ_le_succ (ih (n / 2) B h2)

theorem bitlen_le (n B : Nat) (h : n < 2 ^ B) : bitlen n ≤ B :=
  bitlen_aux_le n n B h

/-- With enough fuel `bitlen_aux` is the number of binary digits. -/
theorem bitlen_aux_spec (fuel : Nat) : ∀ n : Nat, n ≤ fuel →
    n < 2 ^ bitlen_aux fuel n ∧ (n ≠ 0 → 2 ^ (bitlen_aux fuel n - 1) ≤ n) := by
  induction fuel with
  | zero =>
    intro n h
    have hn : n = 0 := by omega
    subst hn
    exact ⟨by simp [bitlen_aux], fun h0 => absurd rfl h0⟩
  | succ f ih =>
    intro n h
    unfold bitlen_aux
    by_cases hn : n = 0
    · rw [if_pos hn]
      subst hn
      exact ⟨by simp, fun h0 => absurd rfl h0⟩
    · rw [if_neg hn]
      obtain ⟨h1, h2⟩ := ih (n / 2) (by omega)
      constructor
      · rw [Nat.pow_succ]
        omega
      · intro _
        rw [Nat.add_sub_cancel]
        by_cases hh : n / 2 = 0
        · have hb : bitlen_aux f (n / 2) = 0 := by
            rw [hh]
            cases f <;> simp [bitlen_aux]
          rw [hb, Nat.pow_zero]
          omega
        · have h3 := h2 hh
          have hpos : 0 < bitlen_aux f (n / 2) := by
            rcases Nat.eq_zero_or_pos (bitlen_aux f (n / 2)) with hz | hz
            · rw [hz, Nat.pow_zero] at h1
              omega
            · exact hz
          have e : bitlen_aux f (n / 2) = (bitlen_aux f (n / 2) - 1) + 1 := by omega
          rw [e, Nat.pow_succ]
          omega

/-- The number `bitlen n` is the position of the leading binary digit of `n`. -/
theorem bitlen_spec (n : Nat) (hn : n ≠ 0) : 2 ^ (bitlen n - 1) ≤ n ∧ n < 2 ^ bitlen n :=
  ⟨(bitlen_aux_spec n n (Nat.le_refl n)).2 hn, (bitlen_aux_spec n n (Nat.le_refl n)).1⟩

/-- Rounding to nearest moves `n / d` by at most one half. -/
theorem rne_div_err (n d : Nat) (hd : 0 < d) :
    2 * (rne_div n d * d) ≤ 2 * n + d ∧ 2 * n ≤ 2 * (rne_div n d * d) + d := by
  have hdm : d * (n / d) + n % d = n := Nat.div_add_mod n d
  have hr : n % d < d := Nat.mod_lt n hd
  have hq : n / d * d = d * (n / d) := Nat.mul_comm _ _
  have hq1 : (n / d + 1) * d = d * (n / d) + d := by rw [Nat.add_mul, Nat.one_mul, hq]
  unfold rne_div
  simp only []
  split_ifs
  · rw [hq]
    omega
  · rw [hq1]
    omega
  · rw [hq]
    omega
  · rw [hq1]
    omega

/-- Rounding a number below `2^B` to `p` significant bits moves it by at most
`2^(B - p) / 2`. -/
theorem round_sig_err (p n B : Nat) (hn : n < 2 ^ B) :
    2 * round_sig p n ≤ 2 * n + 2 ^ (B - p) ∧ 2 * n ≤ 2 * round_sig p n + 2 ^ (B - p) := by
  unfold round_sig
  by_cases hb : bitlen n ≤ p
  · rw [if_pos hb]
    exact ⟨Nat.le_add_right _ _, Nat.le_add_right _ _⟩
  · rw [if_neg hb]
    have hB := bitlen_le n B hn
    have hpow : 2 ^ (bitlen n - p) ≤ 2 ^ (B - p) :=
      Nat.pow_le_pow_right (by decide) (by omega)
    have herr := rne_div_err n (2 ^ (bitlen n - p)) (Nat.two_pow_pos _)
    omega

/-- A number with at most `p` significant bits is not changed by rounding. -/
theorem round_sig_mul_pow (p m k : Nat) (hm : m < 2 ^ p) :
    round_sig p (m * 2 ^ k) = m * 2 ^ k := by
  unfold round_sig
  by_cases hb : bitlen (m * 2 ^ k) ≤ p
  · rw [if_pos hb]
  · rw [if_neg hb]
    have hlt : m * 2 ^ k < 2 ^ (p + k) := by
      rw [Nat.pow_add]
      exact Nat.mul_lt_mul_of_pos_right hm (Nat.two_pow_pos k)
    have hB := bitlen_le _ _ hlt
    have hsh : bitlen (m * 2 ^ k) - p ≤ k := by omega
    have hdvd : 2 ^ (bitlen (m * 2 ^ k) - p) ∣ m * 2 ^ k :=
      Dvd.dvd.mul_left (Nat.pow_dvd_pow 2 hsh) m
    have hmod : m * 2 ^ k % 2 ^ (bitlen (m * 2 ^ k) - p) = 0 := Nat.mod_eq_zero_of_dvd hdvd
    have hpos : 0 < 2 ^ (bitlen (m * 2 ^ k) - p) := Nat.two_pow_pos _
    have hrne : rne_div (m * 2 ^ k) (2 ^ (bitlen (m * 2 ^ k) - p))
        = m * 2 ^ k / 2 ^ (bitlen (m * 2 ^ k) - p) := by
      unfold rne_div
      simp only []
      rw [hmod, if_pos (by omega)]
    rw [hrne, Nat.div_mul_cancel hdvd]

/-- The result of rounding has at most `p` significant bits: it is a multiple
`m * 2^k` with `m ≤ 2^p`. -/
theorem round_sig_repr (p n : Nat) : ∃ m k : Nat, round_sig p n = m * 2 ^ k ∧ m ≤ 2 ^ p := by
  have hlt : n < 2 ^ bitlen n := (bitlen_aux_spec n n (Nat.le_refl n)).1
  unfold round_sig
  by_cases hb : bitlen n ≤ p
  · rw [if_pos hb]
    refine ⟨n, 0, by rw [Nat.pow_zero, Nat.mul_one], ?_⟩
    exact Nat.le_of_lt (Nat.lt_of_lt_of_le hlt (Nat.pow_le_pow_right (by decide) hb))
  · rw [if_neg hb]
    refine ⟨rne_div n (2 ^ (bitlen n - p)), bitlen n - p, rfl, ?_⟩
    have hsplit : 2 ^ bitlen n = 2 ^ p * 2 ^ (bitlen n - p) := by
      rw [← Nat.pow_add]
      congr 1
      omega
    have hq : n / 2 ^ (bitlen n - p) < 2 ^ p := by
      rw [Nat.div_lt_iff_lt_mul (Nat.two_pow_pos _)]
      rw [← hsplit]
      exact hlt
    unfold rne_div
    simp only []
    split_ifs <;> omega

theorem double_00023842_eq : double_00023842 = 8796145444107663 := by decide

/-- The literal is a `double`: it has 53 significant bits in units of `2^(-65)`,
and it is within half a unit of `23842 / 10^8`. -/
theorem double_00023842_spec :
    bitlen double_00023842 = 53
      ∧ 2 * (double_00023842 * 10 ^ 8) ≤ 2 * (23842 * 2 ^ 65) + 10 ^ 8
      ∧ 2 * (23842 * 2 ^ 65) ≤ 2 * (double_00023842 * 10 ^ 8) + 10 ^ 8 := by
  rw [double_00023842_eq]
  decide

/-- The three roundings of the range expression move it by less than
`2^59 + 2^30 + 2^21` units of `2^(-65)`. -/
theorem range_fixed_err (a l : Nat) (ha : a ≤ 511000) (hl : l < 2 ^ 22) :
    2 * double_to_float (dadd_int a (dmul_00023842 l))
        ≤ 2 * (a * 2 ^ 65 + l * double_00023842) + (2 ^ 60 + 2 ^ 31 + 2 ^ 22)
      ∧ 2 * (a * 2 ^ 65 + l * double_00023842)
        ≤ 2 * double_to_float (dadd_int a (dmul_00023842 l)) + (2 ^ 60 + 2 ^ 31 + 2 ^ 22) := by
  unfold double_to_float dadd_int dmul_00023842
  rw [double_00023842_eq]
  have h1 : l * 8796145444107663 < 2 ^ 75 := by omega
  have e1 := round_sig_err DBL_MANT_DIG (l * 8796145444107663) 75 h1
  generalize round_sig DBL_MANT_DIG (l * 8796145444107663) = P at e1 ⊢
  have p1 : (2 : Nat) ^ (75 - DBL_MANT_DIG) = 2 ^ 22 := rfl
  rw [p1] at e1
  have h2 : a * 2 ^ 65 + P < 2 ^ 84 := by omega
  have e2 := round_sig_err DBL_MANT_DIG (a * 2 ^ 65 + P) 84 h2
  generalize round_sig DBL_MANT_DIG (a * 2 ^ 65 + P) = S at e2 ⊢
  have p2 : (2 : Nat) ^ (84 - DBL_MANT_DIG) = 2 ^ 31 := rfl
  rw [p2] at e2
  have h3 : S < 2 ^ 84 := by omega
  have e3 := round_sig_err FLT_MANT_DIG S 84 h3
  generalize round_sig FLT_MANT_DIG S = F at e3 ⊢
  have p3 : (2 : Nat) ^ (84 - FLT_MANT_DIG) = 2 ^ 60 := rfl
  rw [p3] at e3
  omega

/-- Without fractional part the range expression is computed without error. -/
theorem range_fixed_exact (a : Nat) (ha : a ≤ 511000) :
    double_to_float (dadd_int a (dmul_00023842 0)) = a * 2 ^ 65 := by
  have h0 : dmul_00023842 0 = 0 := by decide
  have ha53 : a < 2 ^ DBL_MANT_DIG := by
    have : (2 : Nat) ^ DBL_MANT_DIG = 9007199254740992 := rfl
    omega
  have ha24 : a < 2 ^ FLT_MANT_DIG := by
    have : (2 : Nat) ^ FLT_MANT_DIG = 16777216 := rfl
    omega
  rw [h0]
  unfold double_to_float dadd_int
  rw [Nat.add_zero, round_sig_mul_pow _ a 65 ha53, round_sig_mul_pow _ a 65 ha24]

theorem toInt32_shift_mask (r : Nat) (h : r < 2 ^ 32) :
    Int.land (Int.shiftRight (toInt32 r) 22) 0x1ff = (((r >>> 22) &&& 0x1FF : Nat) : Int) := by
  have hm := int_land_mask (Int.shiftRight (toInt32 r) 22) 9
  have e9 : (((2 ^ 9 - 1 : Nat)) : Int) = 0x1ff := by norm_num
  rw [e9] at hm
  have hs : Int.shiftRight (toInt32 r) 22 = toInt32 r / 2 ^ 22 :=
    Int.shiftRight_eq_div_pow _ _
  rw [hm, hs]
  have hn := Nat.and_pow_two_sub_one_eq_mod (r >>> 22) 9
  have e9n : (2 ^ 9 - 1 : Nat) = 0x1FF := by norm_num
  rw [e9n] at hn
  rw [hn, Nat.shiftRight_eq_div_pow]
  have hr : r % 2 ^ 32 = r := Nat.mod_eq_of_lt h
  unfold toInt32
  rw [hr]
  split <;> push_cast <;> omega

theorem toInt32_low_mask (r : Nat) (h : r < 2 ^ 32) :
    Int.land (toInt32 r) 0x3fffff = ((r &&& 0x3FFFFF : Nat) : Int) := by
  have hm := int_land_mask (toInt32 r) 22
  have e22 : (((2 ^ 22 - 1 : Nat)) : Int) = 0x3fffff := by norm_num
  rw [e22] at hm
  rw [hm]
  have hn := Nat.and_pow_two_sub_one_eq_mod r 22
  have e22n : (2 ^ 22 - 1 : Nat) = 0x3FFFFF := by norm_num
  rw [e22n] at hn
  rw [hn]
  have hr : r % 2 ^ 32 = r := Nat.mod_eq_of_lt h
  unfold toInt32
  rw [hr]
  split <;> push_cast <;> omega

/-- On bytes, the signed computation of the source yields the range rule,
evaluated in floating point, on the unsigned big-endian value. -/
theorem range_value_raw32 (b0 b1 b2 b3 : Nat) (h0 : b0 < 256) (h1 : b1 < 256) (h2 : b2 < 256)
    (h3 : b3 < 256) :
    range_value (raw32 b0 b1 b2 b3) = decodeRangeFloat (be32 b0 b1 b2 b3) := by
  have hr : be32 b0 b1 b2 b3 < 2 ^ 32 := by
    unfold be32
    omega
  have hraw : raw32 b0 b1 b2 b3 = toInt32 (be32 b0 b1 b2 b3) := by
    unfold raw32
    rw [be32_eq b0 b1 b2 b3 h1 h2 h3]
    rfl
  have hs := toInt32_shift_mask _ hr
  have hl := toInt32_low_mask _ hr
  have ea : (Int.land (Int.shiftRight (toInt32 (be32 b0 b1 b2 b3)) 22) 0x1ff * 1000).toNat
      = ((be32 b0 b1 b2 b3 >>> 22) &&& 0x1FF) * 1000 := by
    rw [hs]
    omega
  have el : (Int.land (toInt32 (be32 b0 b1 b2 b3)) 0x3fffff).toNat
      = be32 b0 b1 b2 b3 &&& 0x3FFFFF := by
    rw [hl, Int.toNat_ofNat]
  unfold range_value decodeRangeFloat
  simp only [hraw, ea, el]

theorem range_fields_bound (r : Nat) :
    ((r >>> 22) &&& 0x1FF) * 1000 ≤ 511000 ∧ r &&& 0x3FFFFF < 2 ^ 22 := by
  have h1 : (r >>> 22) &&& 0x1FF ≤ 0x1FF := Nat.and_le_right
  have h2 : r &&& 0x3FFFFF ≤ 0x3FFFFF := Nat.and_le_right
  omega

/-- The float the range rule yields is within 0.01563 of its exact value. -/
theorem decodeRangeFloat_err (r : Nat) :
    decodeRange r - 0.01563 < decodeRangeFloat r
      ∧ decodeRangeFloat r < decodeRange r + 0.01563 := by
  obtain ⟨ha, hl⟩ := range_fields_bound r
  obtain ⟨e1, e2⟩ := range_fixed_err _ _ ha hl
  unfold decodeRangeFloat decodeRange
  rw [double_00023842_eq] at e1 e2
  generalize double_to_float (dadd_int (((r >>> 22) &&& 0x1FF) * 1000)
    (dmul_00023842 (r &&& 0x3FFFFF))) = F at e1 e2 ⊢
  generalize (r >>> 22) &&& 0x1FF = A at ha e1 e2 ⊢
  generalize r &&& 0x3FFFFF = L at hl e1 e2 ⊢
  have q1 : (2 : ℚ) * F ≤ 2 * ((A : ℚ) * 1000 * 2 ^ 65 + L * 8796145444107663)
      + (2 ^ 60 + 2 ^ 31 + 2 ^ 22) := by exact_mod_cast e1
  have q2 : 2 * ((A : ℚ) * 1000 * 2 ^ 65 + L * 8796145444107663)
      ≤ 2 * (F : ℚ) + (2 ^ 60 + 2 ^ 31 + 2 ^ 22) := by exact_mod_cast e2
  have q3 : (L : ℚ) ≤ 4194304 := by
    have : L ≤ 4194304 := by omega
    exact_mod_cast this
  have q4 : (0 : ℚ) ≤ L := Nat.cast_nonneg L
  push_cast
  constructor
  · rw [lt_div_iff₀ (by positivity)]
    norm_num at q1 q2 ⊢
    linarith
  · rw [div_lt_iff₀ (by positivity)]
    norm_num at q1 q2 ⊢
    linarith

/-- Without fractional field the float the range rule yields is its exact value. -/
theorem decodeRangeFloat_exact (r : Nat) (h : r &&& 0x3FFFFF = 0) :
    decodeRangeFloat r = decodeRange r := by
  obtain ⟨ha, _⟩ := range_fields_bound r
  unfold decodeRangeFloat decodeRange
  rw [h, range_fixed_exact _ ha]
  push_cast
  norm_num

theorem raw16_eq (hi lo : Nat) (h0 : hi < 256) (h1 : lo < 256) :
    raw16 hi lo = be16 hi lo / 16 := by
  have e : (hi <<< 8) ||| lo = 2 ^ 8 * hi + lo := by
    rw [Nat.shiftLeft_eq, Nat.mul_comm]
    exact (Nat.mul_add_lt_is_or (by omega) hi).symm
  unfold raw16 be16
  rw [e]
  omega

/-- What is known of the state in which `get_data` returns: it is the state
right after a full-frame transfer, issued from a state `s0` the call has
reached, and the frame passes both checks. -/
theorem get_data_some (fuel : Nat) (s s1 : State) (h : get_data fuel s = some s1) :
    ∃ s0 : State, s1 = spiTransferBuf MMToF10_DATA_SIZE s0 ∧ s0.miso = s.miso
      ∧ (s.buffer.length = 256 → s0.buffer.length = 256)
      ∧ s.clk ≤ s0.clk ∧ (∃ mid, s0.trace = s.trace ++ mid)
      ∧ s1.buffer[0]? = some 0xe9 ∧ s1.buffer[1]? = s1.buffer[255]? := by
  induction fuel generalizing s with
  | zero => simp [get_data] at h
  | succ n ih =>
    by_cases h0 : (spiTransferBuf MMToF10_DATA_SIZE s).buffer[0]? = some 0xe9
    · by_cases h1 : (spiTransferBuf MMToF10_DATA_SIZE s).buffer[1]?
          = (spiTransferBuf MMToF10_DATA_SIZE s).buffer[255]?
      · simp only [get_data, get_data_iter_ok s h0 h1, Option.some.injEq] at h
        subst h
        exact ⟨s, rfl, rfl, id, Nat.le_refl _, ⟨[], by simp⟩, h0, h1⟩
      · simp only [get_data, get_data_iter_seq s h0 h1] at h
        obtain ⟨s0, e, hm, hl, hc, ⟨mid, ht⟩, hv⟩ := ih _ h
        refine ⟨s0, e, hm, ?_, ?_, ?_, hv⟩
        · intro hlen
          apply hl
          simp only [spiTransferBuf, List.length_append, received_length, List.length_drop, hlen]
          rfl
        · exact Nat.le_trans (Nat.le_add_right _ _) hc
        · refine ⟨Event.transferBuf (s.buffer.take MMToF10_DATA_SIZE) :: mid, ?_⟩
          rw [ht]
          simp only [spiTransferBuf, List.append_assoc, List.singleton_append]
    · simp only [get_data, get_data_iter_magic s h0, recovery_eq] at h
      obtain ⟨s0, e, hm, hl, hc, ⟨mid, ht⟩, hv⟩ := ih _ h
      refine ⟨s0, e, hm, fun _ => hl ?_, Nat.le_trans (Nat.le_add_right _ _) hc, ?_, hv⟩
      · simp only [List.length_append, received_length, List.length_replicate]
      · exact ⟨_, by rw [ht, List.append_assoc]⟩

/-- Every byte of a frame `get_data` returned is a byte of the bus. -/
theorem get_data_byte (fuel : Nat) (s s1 : State) (h : get_data fuel s = some s1) (i : Nat)
    (hi : i < 256) : ∃ b, s1.buffer[i]? = some b ∧ b < 256 := by
  obtain ⟨s0, e, _⟩ := get_data_some fuel s s1 h
  subst e
  exact ⟨_, frame_at s0 i hi, Nat.mod_lt _ (by decide)⟩

theorem mosi_discards (n : Nat) : mosi (discards n) = List.replicate n 0 := by
  induction n with
  | zero => rfl
  | succ n ih => simp [discards, List.replicate_succ, mosi] at ih ⊢; exact ih

theorem emitted_append (f : State → State) (s : State) (t : List Event)
    (h : (f s).trace = s.trace ++ t) : emitted f s = t := by
  simp [emitted, h]

theorem buffer_at (s : State) (hlen : s.buffer.length = MMToF10_DATA_SIZE) (i : Nat)
    (hi : i < 256) : ∃ b, s.buffer[i]? = some b := by
  have hi2 : i < s.buffer.length := by rw [hlen]; exact hi
  exact ⟨s.buffer[i], List.getElem?_eq_getElem hi2⟩

/-- Every pass of the loop of `get_data` completes, and starts with a
full-frame transfer. -/
theorem get_data_iter_total (s : State) :
    ∃ (b : Bool) (s2 : State) (rest : List Event), get_data_iter s = some (b, s2)
      ∧ s2.trace = s.trace ++ Event.transferBuf (s.buffer.take MMToF10_DATA_SIZE) :: rest := by
  by_cases h0 : (spiTransferBuf MMToF10_DATA_SIZE s).buffer[0]? = some 0xe9
  · by_cases h1 : (spiTransferBuf MMToF10_DATA_SIZE s).buffer[1]?
        = (spiTransferBuf MMToF10_DATA_SIZE s).buffer[255]?
    · exact ⟨true, _, [], get_data_iter_ok s h0 h1, rfl⟩
    · exact ⟨false, _, [], get_data_iter_seq s h0 h1, rfl⟩
  · have hit := get_data_iter_magic s h0
    rw [recovery_eq] at hit
    exact ⟨false, _, _, hit, rfl⟩

theorem frame_take_length (s : State) :
    ((spiTransferBuf MMToF10_DATA_SIZE s).buffer.take MMToF10_DATA_SIZE).length = 256 := by
  simp only [spiTransferBuf, List.length_take, List.length_append, received_length]
  have : MMToF10_DATA_SIZE = 256 := rfl
  omega

theorem bufferPayloads_append (a b : List Event) :
    bufferPayloads (a ++ b) = bufferPayloads a ++ bufferPayloads b := by
  induction a with
  | nil => rfl
  | cons e t ih => cases e <;> simp [bufferPayloads, ih]

theorem bufferPayloads_discards (n : Nat) : bufferPayloads (discards n) = [] := by
  induction n with
  | zero => rfl
  | succ n ih => simpa [discards, List.replicate_succ, bufferPayloads] using ih

theorem bufferPayloads_setMode (m : MMToF10_Mode) :
    bufferPayloads (setMode_events m) = [[0xEB, 0, 0x01, m.toNat, 0xED]] := by
  simp [setMode_events, frame_events, bufferPayloads_append, bufferPayloads_discards,
    bufferPayloads]

theorem bufferPayloads_sync (n : Nat) :
    bufferPayloads (sync_events n) = [[0xEB, 0, 0x01, 0xFF, 0xED]] := by
  simp [sync_events, bufferPayloads_append, bufferPayloads_discards, bufferPayloads_setMode,
    MMToF10_Mode.toNat]

theorem bufferPayloads_nomal (d : MMToF10_Distance) (r : MMToF10_Rate) :
    bufferPayloads (nomal_events d r)
      = [[0xEB, 0, 0x01, 0x00, 0xED], [0xEB, 0x12, 0x01, d.toNat, 0xED],
          [0xEB, r.toNat, 0x01, 0, 0xED]] := by
  simp [nomal_events, frame_events, bufferPayloads_append, bufferPayloads_discards,
    bufferPayloads_setMode, bufferPayloads, MMToF10_Mode.toNat]

theorem discardOps_append (a b : List Event) :
    discardOps (a ++ b) = discardOps a ++ discardOps b := by
  simp [discardOps]

theorem discardOps_discards (n : Nat) : discardOps (discards n) = discards n := by
  simp [discardOps, discards]

theorem discardOps_sync_events (n : Nat) : discardOps (sync_events n) = discards (764 + n) := by
  have h : discardOps (sync_events n)
      = discards 256 ++ discards 251 ++ discards 256 ++ discards (1 + n) := by
    simp only [sync_events, setMode_events, frame_events, discardOps_append, discardOps_discards,
      List.append_assoc, List.singleton_append]
    simp [discardOps, discardOps_discards, List.filter_cons]
    rfl
  rw [h]
  simp only [discards, List.append_replicate_replicate]
  congr 1
  omega

theorem emitted_sync (s : State) :
    emitted sync s = sync_events (s.miso (s.clk + 768) % 256) := by
  apply emitted_append
  rw [sync_eq]

theorem discards_inj (a b : Nat) : discards a = discards b ↔ a = b := by
  constructor
  · intro h
    have := congrArg List.length h
    simpa [discards] using this
  · intro h
    rw [h]

/-- The `for` loop of `get3d` from cell `j` on, with `d` cells left: it
completes, stores the decoded cells `j .. j + d - 1` at `p .. p + d - 1` and
leaves every other position of `out` as it was. -/
theorem get3d_loop_eq (buffer : List Nat)
    (hb : ∀ i, i < 256 → ∃ b, buffer[i]? = some b ∧ b < 256) (d : Nat) :
    ∀ (j p : Nat) (out : Nat → ℚ), j + d = 32 →
      ∃ out1 : Nat → ℚ, get3d_loop buffer (10 + 4 * j) p out = some out1
        ∧ (∀ k, k < d → out1 (p + k)
            = decodeRangeFloat (be32 (buffer.getD (10 + 4 * (j + k)) 0)
                (buffer.getD (10 + 4 * (j + k) + 1) 0) (buffer.getD (10 + 4 * (j + k) + 2) 0)
                (buffer.getD (10 + 4 * (j + k) + 3) 0)))
        ∧ (∀ k, k < p ∨ p + d ≤ k → out1 k = out k) := by
  induction d with
  | zero =>
    intro j p out hj
    have hi : ¬ (10 + 4 * j < MMToF10_PIXELS * sizeof_uint32_t + OFFSET_3D) := by
      simp only [MMToF10_PIXELS, MMToF10_COLSIZE, MMToF10_ROWSIZE, sizeof_uint32_t, OFFSET_3D]
      omega
    refine ⟨out, ?_, ?_, ?_⟩
    · rw [get3d_loop, dif_neg hi]
    · intro k hk
      omega
    · intro k _
      rfl
  | succ d ih =>
    intro j p out hj
    have hi : 10 + 4 * j < MMToF10_PIXELS * sizeof_uint32_t + OFFSET_3D := by
      simp only [MMToF10_PIXELS, MMToF10_COLSIZE, MMToF10_ROWSIZE, sizeof_uint32_t, OFFSET_3D]
      omega
    obtain ⟨b0, e0, l0⟩ := hb (10 + 4 * j) (by omega)
    obtain ⟨b1, e1, l1⟩ := hb (10 + 4 * j + 1) (by omega)
    obtain ⟨b2, e2, l2⟩ := hb (10 + 4 * j + 2) (by omega)
    obtain ⟨b3, e3, l3⟩ := hb (10 + 4 * j + 3) (by omega)
    have hnext : 10 + 4 * j + sizeof_uint32_t = 10 + 4 * (j + 1) := by
      simp only [sizeof_uint32_t]
      omega
    obtain ⟨out1, hrun, hin, hout⟩ :=
      ih (j + 1) (p + 1) (Function.update out p (range_value (raw32 b0 b1 b2 b3))) (by omega)
    refine ⟨out1, ?_, ?_, ?_⟩
    · rw [get3d_loop, dif_pos hi]
      simp only [e0, e1, e2, e3, Option.bind_eq_bind, Option.some_bind, hnext]
      exact hrun
    · intro k hk
      cases k with
      | zero =>
        rw [Nat.add_zero, Nat.add_zero, hout p (Or.inl (Nat.lt_succ_self p)),
          Function.update_same, range_value_raw32 b0 b1 b2 b3 l0 l1 l2 l3]
        simp [List.getD_eq_getElem?_getD, e0, e1, e2, e3]
      | succ k =>
        have hk2 : k < d := by omega
        have e := hin k hk2
        have ep : p + (k + 1) = p + 1 + k := by omega
        have ej : j + (k + 1) = j + 1 + k := by omega
        rw [ep, ej]
        exact e
    · intro k hk
      have hk2 : k < p + 1 ∨ p + 1 + d ≤ k := by omega
      rw [hout k hk2]
      have hne : k ≠ p := by omega
      exact Function.update_noteq hne _ _

/-- More fuel does not change what `get_data` returns. -/
theorem get_data_mono (fuel k : Nat) (s s1 : State) (h : get_data fuel s = some s1) :
    get_data (fuel + k) s = some s1 := by
  induction fuel generalizing s with
  | zero => simp [get_data] at h
  | succ n ih =>
    rw [Nat.add_right_comm]
    obtain ⟨b, s2, rest, hit, _⟩ := get_data_iter_total s
    cases b with
    | true =>
      simp only [get_data, hit] at h ⊢
      exact h
    | false =>
      simp only [get_data, hit] at h ⊢
      exact ih s2 h

/-! ## The intensity grid -/

/-- The `for` loop of `get3p` from cell `j` on, with `d` cells left: it
completes, stores the cells `j .. j + d - 1` at `p .. p + d - 1` and leaves
every other position of `out` as it was. -/
theorem get3p_loop_eq (buffer : List Nat)
    (hb : ∀ i, i < 256 → ∃ b, buffer[i]? = some b ∧ b < 256) (d : Nat) :
    ∀ (j p : Nat) (out : Nat → Nat), j + d = 32 →
      ∃ out1 : Nat → Nat, get3p_loop buffer (138 + 2 * j) p out = some out1
        ∧ (∀ k, k < d → out1 (p + k)
            = (256 * buffer.getD (138 + 2 * (j + k)) 0
                + buffer.getD (139 + 2 * (j + k)) 0) / 16)
        ∧ (∀ k, k < p ∨ p + d ≤ k → out1 k = out k) := by
  induction d with
  | zero =>
    intro j p out hj
    have hi : ¬ (138 + 2 * j
        < MMToF10_PIXELS * sizeof_uint16_t + MMToF10_PIXELS * sizeof_uint32_t + OFFSET_3D) := by
      simp only [MMToF10_PIXELS, MMToF10_COLSIZE, MMToF10_ROWSIZE, sizeof_uint16_t,
        sizeof_uint32_t, OFFSET_3D]
      omega
    refine ⟨out, ?_, ?_, ?_⟩
    · rw [get3p_loop, dif_neg hi]
    · intro k hk
      omega
    · intro k _
      rfl
  | succ d ih =>
    intro j p out hj
    have hi : 138 + 2 * j
        < MMToF10_PIXELS * sizeof_uint16_t + MMToF10_PIXELS * sizeof_uint32_t + OFFSET_3D := by
      simp only [MMToF10_PIXELS, MMToF10_COLSIZE, MMToF10_ROWSIZE, sizeof_uint16_t,
        sizeof_uint32_t, OFFSET_3D]
      omega
    obtain ⟨b0, e0, l0⟩ := hb (138 + 2 * j) (by omega)
    obtain ⟨b1, e1, l1⟩ := hb (138 + 2 * j + 1) (by omega)
    have hnext : 138 + 2 * j + sizeof_uint16_t = 138 + 2 * (j + 1) := by
      simp only [sizeof_uint16_t]
      omega
    obtain ⟨out1, hrun, hin, hout⟩ :=
      ih (j + 1) (p + 1) (Function.update out p (raw16 b0 b1)) (by omega)
    refine ⟨out1, ?_, ?_, ?_⟩
    · rw [get3p_loop, dif_pos hi]
      simp only [e0, e1, Option.bind_eq_bind, Option.some_bind, hnext]
      exact hrun
    · intro k hk
      cases k with
      | zero =>
        have e1b : buffer[139 + 2 * j]? = some b1 := by
          have : 139 + 2 * j = 138 + 2 * j + 1 := by omega
          rw [this]
          exact e1
        rw [Nat.add_zero, Nat.add_zero, hout p (Or.inl (Nat.lt_succ_self p)),
          Function.update_same, raw16_eq b0 b1 l0 l1]
        simp [List.getD_eq_getElem?_getD, e0, e1b, be16]
      | succ k =>
        have hk2 : k < d := by omega
        have e := hin k hk2
        have ep : p + (k + 1) = p + 1 + k := by omega
        have ej : j + (k + 1) = j + 1 + k := by omega
        rw [ep, ej]
        exact e
    · intro k hk
      have hk2 : k < p + 1 ∨ p + 1 + d ≤ k := by omega
      rw [hout k hk2]
      have hne : k ≠ p := by omega
      exact Function.update_noteq hne _ _

/-- An idle driver whose line opens with a well-formed frame returns it after
one pass. -/
theorem idle_returns (m : Nat → Nat) (h0 : m 0 % 256 = 0xe9)
    (h1 : m 1 % 256 = m 255 % 256) :
    get_data 1 (idle m) = some (spiTransferBuf MMToF10_DATA_SIZE (idle m)) := by
  have e0 : (spiTransferBuf MMToF10_DATA_SIZE (idle m)).buffer[0]? = some 0xe9 := by
    rw [frame_at _ 0 (by decide)]
    exact congrArg some h0
  have e1 : (spiTransferBuf MMToF10_DATA_SIZE (idle m)).buffer[1]?
      = (spiTransferBuf MMToF10_DATA_SIZE (idle m)).buffer[255]? := by
    rw [frame_at _ 1 (by decide), frame_at _ 255 (by decide)]
    exact congrArg some h1
  simp only [get_data, get_data_iter_ok _ e0 e1]

theorem mosi_append (a b : List Event) : mosi (a ++ b) = mosi a ++ mosi b := by
  induction a with
  | nil => rfl
  | cons e t ih => cases e <;> simp [mosi, ih]

theorem emitted_nomal (dist : MMToF10_Distance) (rate : MMToF10_Rate) (s : State) :
    emitted (nomal dist rate) s = nomal_events dist rate := by
  apply emitted_append
  rw [nomal_eq]

theorem emitted_skip (cnt : Int) (s : State) : emitted (skip cnt) s = discards cnt.toNat := by
  apply emitted_append
  rw [skip_eq]

theorem emitted_skip_void (s : State) :
    emitted skip_void s = discards (1 + s.miso s.clk % 256) := by
  apply emitted_append
  rw [skip_void_eq]

theorem mosi_delay (ms : Nat) : mosi [Event.delay ms] = [] := rfl

theorem mosi_frame_events (cmd val : Nat) :
    mosi (frame_events cmd val) = [0xEB, cmd, 0x01, val, 0xED] ++ List.replicate 251 0 := by
  rw [frame_events, mosi, mosi_discards]

theorem mosi_setMode_events (mode : MMToF10_Mode) :
    mosi (setMode_events mode)
      = List.replicate 256 0 ++ ([0xEB, 0x00, 0x01, mode.toNat, 0xED] ++ List.replicate 251 0) := by
  rw [setMode_events, mosi_append, mosi_append, mosi_append, mosi_discards, mosi_delay,
    mosi_frame_events, List.append_nil, List.append_nil]

theorem mosi_nomal_events (dist : MMToF10_Distance) (rate : MMToF10_Rate) :
    mosi (nomal_events dist rate)
      = List.replicate 256 0
        ++ ([0xEB, 0x00, 0x01, 0x00, 0xED] ++ List.replicate 251 0)
        ++ ([0xEB, 0x12, 0x01, dist.toNat, 0xED] ++ List.replicate 251 0)
        ++ List.replicate 256 0
        ++ ([0xEB, rate.toNat, 0x01, 0x00, 0xED] ++ List.replicate 251 0)
        ++ List.replicate 256 0 := by
  rw [nomal_events, mosi_append, mosi_append, mosi_append, mosi_append, mosi_append,
    mosi_append, mosi_discards, mosi_delay, mosi_frame_events, mosi_frame_events,
    mosi_setMode_events, List.append_nil, List.append_nil]
  rfl

theorem mosi_sync_events (n : Nat) :
    mosi (sync_events n)
      = List.replicate 256 0 ++ ([0xEB, 0x00, 0x01, 0xFF, 0xED] ++ List.replicate 251 0)
        ++ List.replicate 256 0 ++ List.replicate (1 + n) 0 := by
  rw [sync_events, mosi_append, mosi_append, mosi_discards, mosi_discards, mosi_setMode_events]
  rfl

/-! ## The loop on a line without magic byte -/

theorem fullFrames_append (a b : List Event) :
    fullFrames (a ++ b) = fullFrames a + fullFrames b := by
  simp [fullFrames, bufferPayloads_append]

theorem fullFrames_sync_events (n : Nat) : fullFrames (sync_events n) = 0 := by
  rw [fullFrames, bufferPayloads_sync]
  rfl

theorem fullFrames_nomal_events (d : MMToF10_Distance) (r : MMToF10_Rate) :
    fullFrames (nomal_events d r) = 0 := by
  rw [fullFrames, bufferPayloads_nomal]
  rfl

/-- One pass on a frame without the magic byte, in closed form. -/
theorem get_data_iter_recovery (s : State) (h : s.miso (s.clk + 0) % 256 ≠ 0xe9) :
    get_data_iter s = some (false,
      { s with
        buffer := received s.miso (s.clk + (2049 + s.miso (s.clk + 1024) % 256)) 5
          ++ List.replicate 251 0
        m_mode := MMToF10_Mode.NomalMode
        m_dist := MMToF10_Distance.ShortDistance
        m_rate := MMToF10_Rate.LowSpeed
        clk := s.clk + (2561 + s.miso (s.clk + 1024) % 256)
        trace := s.trace ++ (Event.transferBuf (s.buffer.take MMToF10_DATA_SIZE)
          :: ([Event.printf (s.miso (s.clk + 0) % 256), Event.printf (s.miso (s.clk + 1) % 256),
              Event.printf (s.miso (s.clk + 2) % 256), Event.printf (s.miso (s.clk + 3) % 256)]
            ++ sync_events (s.miso (s.clk + 1024) % 256)
            ++ nomal_events MMToF10_Distance.ShortDistance MMToF10_Rate.LowSpeed)) }) := by
  have h0 : (spiTransferBuf MMToF10_DATA_SIZE s).buffer[0]? ≠ some 0xe9 := by
    rw [frame_at s 0 (by decide)]
    intro hc
    exact h (Option.some.inj hc)
  rw [get_data_iter_magic s h0, recovery_eq]

/-- On a line that never carries the magic byte, every pass ends in `continue`
after one more full-frame transfer, and the loop never leaves. -/
theorem passes_without_magic (N : Nat) :
    ∀ s : State, s.buffer.length = 256 → (∀ i, s.miso i % 256 ≠ 0xe9) →
      ∃ sN : State, get_data_passes N s = some sN
        ∧ sN.buffer.length = 256 ∧ sN.miso = s.miso
        ∧ fullFrames sN.trace = fullFrames s.trace + N
        ∧ s.clk + 2561 * N ≤ sN.clk
        ∧ ∀ fuel, get_data (N + fuel) s = get_data fuel sN := by
  induction N with
  | zero =>
    intro s hlen _
    exact ⟨s, rfl, hlen, rfl, rfl, by omega, fun fuel => by rw [Nat.zero_add]⟩
  | succ N ih =>
    intro s hlen hz
    have hit := get_data_iter_recovery s (hz _)
    obtain ⟨sN, hp, hl, hm, hf, hc, hg⟩ := ih _
      (by simp only [List.length_append, received_length, List.length_replicate] :
        ({ s with
          buffer := received s.miso (s.clk + (2049 + s.miso (s.clk + 1024) % 256)) 5
            ++ List.replicate 251 0
          m_mode := MMToF10_Mode.NomalMode
          m_dist := MMToF10_Distance.ShortDistance
          m_rate := MMToF10_Rate.LowSpeed
          clk := s.clk + (2561 + s.miso (s.clk + 1024) % 256)
          trace := s.trace ++ (Event.transferBuf (s.buffer.take MMToF10_DATA_SIZE)
            :: ([Event.printf (s.miso (s.clk + 0) % 256),
                Event.printf (s.miso (s.clk + 1) % 256),
                Event.printf (s.miso (s.clk + 2) % 256),
                Event.printf (s.miso (s.clk + 3) % 256)]
              ++ sync_events (s.miso (s.clk + 1024) % 256)
              ++ nomal_events MMToF10_Distance.ShortDistance
                MMToF10_Rate.LowSpeed)) } : State).buffer.length = 256)
      hz
    refine ⟨sN, ?_, hl, hm, ?_, ?_, ?_⟩
    · simp only [get_data_passes, hit]
      exact hp
    · rw [hf]
      have htake : (s.buffer.take MMToF10_DATA_SIZE).length = 256 := by
        rw [List.length_take, hlen]
        rfl
      have hone : fullFrames (Event.transferBuf (s.buffer.take MMToF10_DATA_SIZE)
          :: ([Event.printf (s.miso (s.clk + 0) % 256), Event.printf (s.miso (s.clk + 1) % 256),
              Event.printf (s.miso (s.clk + 2) % 256), Event.printf (s.miso (s.clk + 3) % 256)]
            ++ sync_events (s.miso (s.clk + 1024) % 256)
            ++ nomal_events MMToF10_Distance.ShortDistance MMToF10_Rate.LowSpeed)) = 1 := by
        have hcons : ∀ (p : List Nat) (t : List Event), p.length = 256 →
            fullFrames (Event.transferBuf p :: t) = fullFrames t + 1 := by
          intro p t hp
          simp [fullFrames, bufferPayloads, hp]
        rw [hcons _ _ htake, fullFrames_append, fullFrames_append, fullFrames_sync_events,
          fullFrames_nomal_events]
        rfl
      rw [fullFrames_append, hone]
      omega
    · have hc2 : s.clk + (2561 + s.miso (s.clk + 1024) % 256) + 2561 * N ≤ sN.clk := hc
      omega
    · intro fuel
      have e : N + 1 + fuel = (N + fuel) + 1 := by omega
      rw [e]
      simp only [get_data, hit]
      exact hg fuel

theorem get_data_zero (s : State) : get_data 0 s = none := rfl

/-! ## Byte counts -/

theorem led_eq (r g b : Nat) (s : State) :
    led r g b s =
      { s with
        buffer := received s.miso (s.clk + 512) 5 ++ List.replicate 251 0
        clk := s.clk + 768
        trace := s.trace ++ (frame_events 0xC2 (b % 256) ++ frame_events 0xC0 (r % 256)
          ++ frame_events 0xC1 (g % 256)) } := by
  have e1 : (0xC2 : Nat) % 256 = 0xC2 := rfl
  have e2 : (0xC0 : Nat) % 256 = 0xC0 := rfl
  have e3 : (0xC1 : Nat) % 256 = 0xC1 := rfl
  simp only [led, send_eq, MMToF10_Command.toNat, e1, e2, e3, Nat.add_assoc, List.append_assoc]

theorem emitted_send (cmd val : Nat) (s : State) :
    emitted (send cmd val) s = frame_events (cmd % 256) (val % 256) := by
  apply emitted_append
  rw [send_eq]

theorem emitted_setMode (mode : MMToF10_Mode) (s : State) :
    emitted (setMode mode) s = setMode_events mode := by
  apply emitted_append
  rw [setMode_eq]

theorem emitted_led (r g b : Nat) (s : State) :
    emitted (led r g b) s
      = frame_events 0xC2 (b % 256) ++ frame_events 0xC0 (r % 256)
        ++ frame_events 0xC1 (g % 256) := by
  apply emitted_append
  rw [led_eq]

theorem mosi_frame_events_length (cmd val : Nat) : (mosi (frame_events cmd val)).length = 256 := by
  rw [mosi_frame_events, List.length_append, List.length_replicate]
  rfl

theorem mosi_setMode_events_length (mode : MMToF10_Mode) :
    (mosi (setMode_events mode)).length = 512 := by
  rw [mosi_setMode_events, List.length_append, List.length_append, List.length_replicate,
    List.length_replicate]
  rfl

theorem mosi_nomal_events_length (dist : MMToF10_Distance) (rate : MMToF10_Rate) :
    (mosi (nomal_events dist rate)).length = 1536 := by
  rw [mosi_nomal_events]
  simp only [List.length_append, List.length_replicate, List.length_cons, List.length_nil]

theorem mosi_sync_events_length (n : Nat) : (mosi (sync_events n)).length = 769 + n := by
  rw [mosi_sync_events]
  simp only [List.length_append, List.length_replicate, List.length_cons, List.length_nil]
  omega

/-! ## Numeric shape of the decoders -/

theorem get1p_value (fuel : Nat) (s s1 : State) (hi lo : Nat) (h : get_data fuel s = some s1)
    (e8 : s1.buffer[8]? = some hi) (e9 : s1.buffer[9]? = some lo) :
    get1p fuel s = some (intensity_value (raw16 hi lo), s1) := by
  simp [get1p, h, e8, e9, intensity_value]

theorem get1d_value (fuel : Nat) (s s1 : State) (b4 b5 b6 b7 : Nat)
    (h : get_data fuel s = some s1) (e4 : s1.buffer[4]? = some b4)
    (e5 : s1.buffer[5]? = some b5) (e6 : s1.buffer[6]? = some b6)
    (e7 : s1.buffer[7]? = some b7) :
    get1d fuel s = some (range_value (raw32 b4 b5 b6 b7), s1) := by
  simp [get1d, h, e4, e5, e6, e7]

/-- What `get3p` stores, cell by cell, on a frame `get_data` returned. -/
theorem get3p_cells (fuel : Nat) (out : Nat → Nat) (s s1 : State)
    (h : get_data fuel s = some s1) :
    ∃ out1 : Nat → Nat, get3p fuel out s = some (out1, s1)
      ∧ (∀ k hi lo, k < 32 → s1.buffer[138 + 2 * k]? = some hi →
          s1.buffer[139 + 2 * k]? = some lo → out1 k = raw16 hi lo)
      ∧ (∀ k, 32 ≤ k → out1 k = out k) := by
  have hb : ∀ i, i < 256 → ∃ b, s1.buffer[i]? = some b ∧ b < 256 :=
    fun i hi => get_data_byte fuel s s1 h i hi
  obtain ⟨out1, hrun, hin, hout⟩ := get3p_loop_eq s1.buffer hb 32 0 0 out rfl
  refine ⟨out1, ?_, ?_, ?_⟩
  · have hrun2 : get3p_loop s1.buffer (4 * 8 * 4 + 10) 0 out = some out1 := hrun
    simp [get3p, h, hrun2]
  · intro k hi lo hk e0 e1
    obtain ⟨b0, f0, l0⟩ := hb (138 + 2 * k) (by omega)
    obtain ⟨b1, f1, l1⟩ := hb (139 + 2 * k) (by omega)
    rw [e0] at f0
    rw [e1] at f1
    have e := hin k hk
    simp only [Nat.zero_add] at e
    rw [e, raw16_eq hi lo (by rw [Option.some.inj f0]; exact l0)
      (by rw [Option.some.inj f1]; exact l1)]
    simp [List.getD_eq_getElem?_getD, e0, e1, be16]
  · intro k hk
    exact hout k (Or.inr (by omega))

theorem intensity_value_eq (q : Nat) : intensity_value q = (q : ℚ) / 16 := by
  have h1 : q >>> 4 = q / 16 := by rw [Nat.shiftRight_eq_div_pow]
  have h2 : q &&& 0xf = q % 16 := Nat.and_pow_two_sub_one_eq_mod q 4
  have h3 : (q : ℚ) = 16 * ((q / 16 : Nat) : ℚ) + ((q % 16 : Nat) : ℚ) := by
    have := Nat.div_add_mod q 16
    exact_mod_cast this.symm
  rw [intensity_value, h1, h2]
  rw [h3]
  norm_num
  ring

theorem be16_split (r : Nat) : be16 (r / 256) (r % 256) = r := by
  unfold be16
  omega

theorem raw16_split (r : Nat) (hr : r < 65536) : raw16 (r / 256) (r % 256) = r / 16 := by
  rw [raw16_eq _ _ (by omega) (Nat.mod_lt _ (by decide)), be16_split]

theorem getElem?_isSome_of_lt (buffer : List Nat) (i : Nat) (h : i < buffer.length) :
    ∃ b, buffer[i]? = some b :=
  ⟨buffer[i], List.getElem?_eq_getElem h⟩

/-- The loop of `get3d` from cell `j` on completes exactly when the buffer
reaches up to index 137, unless no cell is left. -/
theorem get3d_loop_isSome (buffer : List Nat) (d : Nat) :
    ∀ (j p : Nat) (out : Nat → ℚ), j + d = 32 →
      ((get3d_loop buffer (10 + 4 * j) p out).isSome = true ↔ (d = 0 ∨ 138 ≤ buffer.length)) := by
  induction d with
  | zero =>
    intro j p out hj
    have hi : ¬ (10 + 4 * j < MMToF10_PIXELS * sizeof_uint32_t + OFFSET_3D) := by
      simp only [MMToF10_PIXELS, MMToF10_COLSIZE, MMToF10_ROWSIZE, sizeof_uint32_t, OFFSET_3D]
      omega
    rw [get3d_loop, dif_neg hi]
    simp
  | succ d ih =>
    intro j p out hj
    have hi : 10 + 4 * j < MMToF10_PIXELS * sizeof_uint32_t + OFFSET_3D := by
      simp only [MMToF10_PIXELS, MMToF10_COLSIZE, MMToF10_ROWSIZE, sizeof_uint32_t, OFFSET_3D]
      omega
    have hnext : 10 + 4 * j + sizeof_uint32_t = 10 + 4 * (j + 1) := by
      simp only [sizeof_uint32_t]
      omega
    rw [get3d_loop, dif_pos hi]
    by_cases hlen : 10 + 4 * j + 3 < buffer.length
    · obtain ⟨b0, e0⟩ := getElem?_isSome_of_lt buffer (10 + 4 * j) (by omega)
      obtain ⟨b1, e1⟩ := getElem?_isSome_of_lt buffer (10 + 4 * j + 1) (by omega)
      obtain ⟨b2, e2⟩ := getElem?_isSome_of_lt buffer (10 + 4 * j + 2) (by omega)
      obtain ⟨b3, e3⟩ := getElem?_isSome_of_lt buffer (10 + 4 * j + 3) hlen
      simp only [e0, e1, e2, e3, Option.bind_eq_bind, Option.some_bind, hnext]
      rw [ih (j + 1) _ _ (by omega)]
      constructor
      · rintro (h | h)
        · right
          omega
        · exact Or.inr h
      · rintro (h | h)
        · omega
        · exact Or.inr h
    · have e3 : buffer[10 + 4 * j + 3]? = none := List.getElem?_eq_none (by omega)
      have hnone : (do
          let b0 ← buffer[10 + 4 * j]?
          let b1 ← buffer[10 + 4 * j + 1]?
          let b2 ← buffer[10 + 4 * j + 2]?
          let b3 ← buffer[10 + 4 * j + 3]?
          get3d_loop buffer (10 + 4 * j + sizeof_uint32_t) (p + 1)
            (Function.update out p (range_value (raw32 b0 b1 b2 b3)))) = none := by
        rw [e3]
        cases buffer[10 + 4 * j]? <;> cases buffer[10 + 4 * j + 1]?
          <;> cases buffer[10 + 4 * j + 2]? <;> rfl
      rw [hnone]
      constructor
      · intro h
        simp at h
      · rintro (h | h)
        · omega
        · omega

/-- The loop of `get3p` from cell `j` on completes exactly when the buffer
reaches up to index 201, unless no cell is left. -/
theorem get3p_loop_isSome (buffer : List Nat) (d : Nat) :
    ∀ (j p : Nat) (out : Nat → Nat), j + d = 32 →
      ((get3p_loop buffer (138 + 2 * j) p out).isSome = true
        ↔ (d = 0 ∨ 202 ≤ buffer.length)) := by
  induction d with
  | zero =>
    intro j p out hj
    have hi : ¬ (138 + 2 * j
        < MMToF10_PIXELS * sizeof_uint16_t + MMToF10_PIXELS * sizeof_uint32_t + OFFSET_3D) := by
      simp only [MMToF10_PIXELS, MMToF10_COLSIZE, MMToF10_ROWSIZE, sizeof_uint16_t,
        sizeof_uint32_t, OFFSET_3D]
      omega
    rw [get3p_loop, dif_neg hi]
    simp
  | succ d ih =>
    intro j p out hj
    have hi : 138 + 2 * j
        < MMToF10_PIXELS * sizeof_uint16_t + MMToF10_PIXELS * sizeof_uint32_t + OFFSET_3D := by
      simp only [MMToF10_PIXELS, MMToF10_COLSIZE, MMToF10_ROWSIZE, sizeof_uint16_t,
        sizeof_uint32_t, OFFSET_3D]
      omega
    have hnext : 138 + 2 * j + sizeof_uint16_t = 138 + 2 * (j + 1) := by
      simp only [sizeof_uint16_t]
      omega
    rw [get3p_loop, dif_pos hi]
    by_cases hlen : 138 + 2 * j + 1 < buffer.length
    · obtain ⟨b0, e0⟩ := getElem?_isSome_of_lt buffer (138 + 2 * j) (by omega)
      obtain ⟨b1, e1⟩ := getElem?_isSome_of_lt buffer (138 + 2 * j + 1) hlen
      simp only [e0, e1, Option.bind_eq_bind, Option.some_bind, hnext]
      rw [ih (j + 1) _ _ (by omega)]
      constructor
      · rintro (h | h)
        · right
          omega
        · exact Or.inr h
      · rintro (h | h)
        · omega
        · exact Or.inr h
    · have e1 : buffer[138 + 2 * j + 1]? = none := List.getElem?_eq_none (by omega)
      have hnone : (do
          let b0 ← buffer[138 + 2 * j]?
          let b1 ← buffer[138 + 2 * j + 1]?
          get3p_loop buffer (138 + 2 * j + sizeof_uint16_t) (p + 1)
            (Function.update out p (raw16 b0 b1))) = none := by
        rw [e1]
        cases buffer[138 + 2 * j]? <;> rfl
      rw [hnone]
      constructor
      · intro h
        simp at h
      · rintro (h | h)
        · omega
        · omega

theorem get3d_reads_eq : get3d_reads = List.range' 10 128 := by decide

theorem get3p_reads_eq : get3p_reads = List.range' 138 64 := by decide

theorem all_reads_eq :
    get1d_reads ++ get1p_reads ++ get3d_reads ++ get3p_reads = List.range' 4 198 := by decide

/-- What `get3d` stores, cell by cell, on a frame `get_data` returned, in terms
of the expression of the source. -/
theorem get3d_cells (fuel : Nat) (out : Nat → ℚ) (s s1 : State)
    (h : get_data fuel s = some s1) :
    ∃ out1 : Nat → ℚ, get3d fuel out s = some (out1, s1)
      ∧ (∀ k, k < 32 → ∃ b0 b1 b2 b3 : Nat,
          s1.buffer[10 + 4 * k]? = some b0 ∧ s1.buffer[10 + 4 * k + 1]? = some b1
            ∧ s1.buffer[10 + 4 * k + 2]? = some b2 ∧ s1.buffer[10 + 4 * k + 3]? = some b3
            ∧ out1 k = range_value (raw32 b0 b1 b2 b3))
      ∧ (∀ k, 32 ≤ k → out1 k = out k) := by
  have hb : ∀ i, i < 256 → ∃ b, s1.buffer[i]? = some b ∧ b < 256 :=
    fun i hi => get_data_byte fuel s s1 h i hi
  obtain ⟨out1, hrun, hin, hout⟩ := get3d_loop_eq s1.buffer hb 32 0 0 out rfl
  refine ⟨out1, ?_, ?_, ?_⟩
  · have hrun2 : get3d_loop s1.buffer OFFSET_3D 0 out = some out1 := hrun
    simp [get3d, h, hrun2]
  · intro k hk
    obtain ⟨b0, e0, l0⟩ := hb (10 + 4 * k) (by omega)
    obtain ⟨b1, e1, l1⟩ := hb (10 + 4 * k + 1) (by omega)
    obtain ⟨b2, e2, l2⟩ := hb (10 + 4 * k + 2) (by omega)
    obtain ⟨b3, e3, l3⟩ := hb (10 + 4 * k + 3) (by omega)
    refine ⟨b0, b1, b2, b3, e0, e1, e2, e3, ?_⟩
    have e := hin k hk
    simp only [Nat.zero_add] at e
    rw [e, range_value_raw32 b0 b1 b2 b3 l0 l1 l2 l3]
    simp [List.getD_eq_getElem?_getD, e0, e1, e2, e3]
  · intro k hk
    exact hout k (Or.inr (by omega))

/-! ## The range rule at single raw values -/

theorem decodeRangeFloat_lsb : decodeRangeFloat (be32 0 0 0 1) = 8192049 / 34359738368 := by
  have h : double_to_float (dadd_int ((((be32 0 0 0 1) >>> 22) &&& 0x1FF) * 1000)
      (dmul_00023842 ((be32 0 0 0 1) &&& 0x3FFFFF))) = 8192049 * 2 ^ 30 := by decide
  rw [decodeRangeFloat, h]
  norm_num

theorem decodeRange_lsb : decodeRange (be32 0 0 0 1) = 11921 / 50000000 := by
  have e1 : (((be32 0 0 0 1) >>> 22) &&& 0x1FF : Nat) = 0 := by decide
  have e2 : ((be32 0 0 0 1) &&& 0x3FFFFF : Nat) = 1 := by decide
  rw [decodeRange, e1, e2]
  norm_num

theorem decodeRangeFloat_cell :
    decodeRangeFloat (be32 0x00 0x80 0x00 0x01) = 8192001 / 4096 := by
  have h : double_to_float (dadd_int ((((be32 0x00 0x80 0x00 0x01) >>> 22) &&& 0x1FF) * 1000)
      (dmul_00023842 ((be32 0x00 0x80 0x00 0x01) &&& 0x3FFFFF))) = 8192001 * 2 ^ 53 := by
    decide
  rw [decodeRangeFloat, h]
  norm_num

theorem decodeRange_cell :
    decodeRange (be32 0x00 0x80 0x00 0x01) = 100000011921 / 50000000 := by
  have e1 : (((be32 0x00 0x80 0x00 0x01) >>> 22) &&& 0x1FF : Nat) = 2 := by decide
  have e2 : ((be32 0x00 0x80 0x00 0x01) &&& 0x3FFFFF : Nat) = 1 := by decide
  rw [decodeRange, e1, e2]
  norm_num

theorem goodLine_returns :
    get_data 1 (idle goodLine) = some (spiTransferBuf MMToF10_DATA_SIZE (idle goodLine)) := by
  have h0 : (spiTransferBuf MMToF10_DATA_SIZE (idle goodLine)).buffer[0]? = some 0xe9 := by
    rw [frame_at _ 0 (by decide)]
    rfl
  have h1 : (spiTransferBuf MMToF10_DATA_SIZE (idle goodLine)).buffer[1]?
      = (spiTransferBuf MMToF10_DATA_SIZE (idle goodLine)).buffer[255]? := by
    rw [frame_at _ 1 (by decide), frame_at _ 255 (by decide)]
    rfl
  simp only [get_data, get_data_iter_ok _ h0 h1]

/-! ## Main results -/

/-- C1, refuted: on the frame of `lsbLine`, whose bytes 4..7 are `00 00 00 01`,
`get1d` returns the float `8192049 / 2^35`, which is not the value
`11921 / 50000000` the range rule has in exact rational arithmetic. -/
theorem C1_get1d_not_exact :
    get_data 1 (idle lsbLine) = some (spiTransferBuf MMToF10_DATA_SIZE (idle lsbLine))
      ∧ get1d 1 (idle lsbLine)
        = some (8192049 / 34359738368, spiTransferBuf MMToF10_DATA_SIZE (idle lsbLine))
      ∧ decodeRange (be32 0 0 0 1) = 11921 / 50000000
      ∧ get1d 1 (idle lsbLine)
        ≠ some (decodeRange (be32 0 0 0 1),
            spiTransferBuf MMToF10_DATA_SIZE (idle lsbLine)) := by
  have hret := idle_returns lsbLine rfl rfl
  have e4 : (spiTransferBuf MMToF10_DATA_SIZE (idle lsbLine)).buffer[4]? = some 0 := by
    rw [frame_at _ 4 (by decide)]
    rfl
  have e5 : (spiTransferBuf MMToF10_DATA_SIZE (idle lsbLine)).buffer[5]? = some 0 := by
    rw [frame_at _ 5 (by decide)]
    rfl
  have e6 : (spiTransferBuf MMToF10_DATA_SIZE (idle lsbLine)).buffer[6]? = some 0 := by
    rw [frame_at _ 6 (by decide)]
    rfl
  have e7 : (spiTransferBuf MMToF10_DATA_SIZE (idle lsbLine)).buffer[7]? = some 1 := by
    rw [frame_at _ 7 (by decide)]
    rfl
  have hget := get1d_value 1 (idle lsbLine) _ 0 0 0 1 hret e4 e5 e6 e7
  rw [range_value_raw32 0 0 0 1 (by decide) (by decide) (by decide) (by decide),
    decodeRangeFloat_lsb] at hget
  refine ⟨hret, hget, decodeRange_lsb, ?_⟩
  rw [hget, decodeRange_lsb]
  intro hc
  have h2 := congrArg Prod.fst (Option.some.inj hc)
  norm_num at h2

/-- C1, amended: whenever `get_data` returns with the frame `s1`, `get1d` returns
for the same input the range rule
`((r >> 22) & 0x1FF) * 1000 + (r & 0x3FFFFF) * 0.00023842` evaluated in floating
point, the product and the sum rounded to `double` and the result narrowed to
`float`, `r` being the 32-bit big-endian value of bytes 4..7 of the frame.  The
float is within 0.01563 of the exact value of the rule and equal to it when
`r & 0x3FFFFF` is 0; for `r = 0x00400000` it is exactly 1000. -/
theorem C1_get1d_decodes_range (fuel : Nat) (s s1 : State) (h : get_data fuel s = some s1) :
    ∃ b4 b5 b6 b7 : Nat,
      s1.buffer[4]? = some b4 ∧ s1.buffer[5]? = some b5 ∧ s1.buffer[6]? = some b6
        ∧ s1.buffer[7]? = some b7
        ∧ get1d fuel s = some (decodeRangeFloat (be32 b4 b5 b6 b7), s1)
        ∧ decodeRange (be32 b4 b5 b6 b7) - 0.01563 < decodeRangeFloat (be32 b4 b5 b6 b7)
        ∧ decodeRangeFloat (be32 b4 b5 b6 b7) < decodeRange (be32 b4 b5 b6 b7) + 0.01563
        ∧ (be32 b4 b5 b6 b7 &&& 0x3FFFFF = 0 →
            get1d fuel s = some (decodeRange (be32 b4 b5 b6 b7), s1))
        ∧ (be32 b4 b5 b6 b7 = 0x00400000 → get1d fuel s = some (1000, s1)) := by
  obtain ⟨b4, e4, l4⟩ := get_data_byte fuel s s1 h 4 (by decide)
  obtain ⟨b5, e5, l5⟩ := get_data_byte fuel s s1 h 5 (by decide)
  obtain ⟨b6, e6, l6⟩ := get_data_byte fuel s s1 h 6 (by decide)
  obtain ⟨b7, e7, l7⟩ := get_data_byte fuel s s1 h 7 (by decide)
  have hget : get1d fuel s = some (decodeRangeFloat (be32 b4 b5 b6 b7), s1) := by
    rw [get1d_value fuel s s1 b4 b5 b6 b7 h e4 e5 e6 e7,
      range_value_raw32 b4 b5 b6 b7 l4 l5 l6 l7]
  obtain ⟨hlo, hhi⟩ := decodeRangeFloat_err (be32 b4 b5 b6 b7)
  refine ⟨b4, b5, b6, b7, e4, e5, e6, e7, hget, hlo, hhi, ?_, ?_⟩
  · intro hz
    rw [hget, decodeRangeFloat_exact _ hz]
  · intro hr
    have e1 : (0x00400000 >>> 22 &&& 0x1FF : Nat) = 1 := by decide
    have e2 : (0x00400000 &&& 0x3FFFFF : Nat) = 0 := by decide
    rw [hget, hr, decodeRangeFloat_exact _ e2, decodeRange, e1, e2]
    norm_num

/-- C1, at the frame of `goodLine`, whose bytes 4..7 are `00 40 00 00`: the call
returns exactly 1000. -/
theorem C1_get1d_decodes_range_witness :
    get_data 1 (idle goodLine) = some (spiTransferBuf MMToF10_DATA_SIZE (idle goodLine))
      ∧ get1d 1 (idle goodLine)
        = some (1000, spiTransferBuf MMToF10_DATA_SIZE (idle goodLine)) := by
  obtain ⟨b4, b5, b6, b7, e4, e5, e6, e7, _, _, _, _, hval⟩ :=
    C1_get1d_decodes_range 1 (idle goodLine) _ goodLine_returns
  rw [frame_at _ _ (by decide)] at e4 e5 e6 e7
  refine ⟨goodLine_returns, hval ?_⟩
  rw [← Option.some.inj e4, ← Option.some.inj e5, ← Option.some.inj e6, ← Option.some.inj e7]
  rfl

/-- C2: whenever `get_data` returns with the frame `s1`, `get1p` returns for the
same input, and its value is `(q >> 4) + (q & 0xF) * 0.0625` with `q = r / 16`,
`r` being the 16-bit big-endian value of bytes 8..9 of the frame; for
`r = 0x0030` the value is exactly 0.1875. -/
theorem C2_get1p_decodes_intensity (fuel : Nat) (s s1 : State)
    (h : get_data fuel s = some s1) :
    ∃ b8 b9 : Nat,
      s1.buffer[8]? = some b8 ∧ s1.buffer[9]? = some b9
        ∧ get1p fuel s = some (decodeIntensity (be16 b8 b9), s1)
        ∧ (be16 b8 b9 = 0x0030 → get1p fuel s = some (0.1875, s1)) := by
  obtain ⟨b8, e8, l8⟩ := get_data_byte fuel s s1 h 8 (by decide)
  obtain ⟨b9, e9, l9⟩ := get_data_byte fuel s s1 h 9 (by decide)
  have hget : get1p fuel s = some (decodeIntensity (be16 b8 b9), s1) := by
    simp [get1p, h, e8, e9, raw16_eq b8 b9 l8 l9, decodeIntensity]
  refine ⟨b8, b9, e8, e9, hget, ?_⟩
  intro hr
  have e1 : ((0x0030 / 16) >>> 4 : Nat) = 0 := by decide
  have e2 : ((0x0030 / 16) &&& 0xF : Nat) = 3 := by decide
  rw [hget, hr, decodeIntensity, e1, e2]
  norm_num

/-- C2, at the frame of `goodLine`, whose bytes 8..9 are `00 30`: the call
returns exactly 0.1875. -/
theorem C2_get1p_decodes_intensity_witness :
    get_data 1 (idle goodLine) = some (spiTransferBuf MMToF10_DATA_SIZE (idle goodLine))
      ∧ get1p 1 (idle goodLine)
        = some (0.1875, spiTransferBuf MMToF10_DATA_SIZE (idle goodLine)) := by
  obtain ⟨b8, b9, e8, e9, _, hval⟩ :=
    C2_get1p_decodes_intensity 1 (idle goodLine) _ goodLine_returns
  rw [frame_at _ _ (by decide)] at e8 e9
  refine ⟨goodLine_returns, hval ?_⟩
  rw [← Option.some.inj e8, ← Option.some.inj e9]
  rfl

/-- C3: for command and value bytes `cmd` and `val`, the buffer `send` builds and
the bytes it shifts out are the same 256 bytes `0xEB, cmd, 0x01, val, 0xED`
followed by 251 zeros; bytes 1 and 3 of what is shifted out are `cmd` and `val`,
bytes 5..255 are zero, and exactly 256 bytes are clocked. -/
theorem C3_send_frame (cmd val : Nat) (s : State) (hc : cmd < 256) (hv : val < 256) :
    send_fill cmd val = [0xEB, cmd, 0x01, val, 0xED] ++ List.replicate 251 0
      ∧ emitted (send cmd val) s
        = Event.transferBuf [0xEB, cmd, 0x01, val, 0xED] :: List.replicate 251 (Event.transfer 0)
      ∧ mosi (emitted (send cmd val) s) = [0xEB, cmd, 0x01, val, 0xED] ++ List.replicate 251 0
      ∧ (mosi (emitted (send cmd val) s)).length = 256
      ∧ (mosi (emitted (send cmd val) s))[0]? = some 0xEB
      ∧ (mosi (emitted (send cmd val) s))[1]? = some cmd
      ∧ (mosi (emitted (send cmd val) s))[2]? = some 0x01
      ∧ (mosi (emitted (send cmd val) s))[3]? = some val
      ∧ (mosi (emitted (send cmd val) s))[4]? = some 0xED
      ∧ (∀ i, 5 ≤ i → i < 256 → (mosi (emitted (send cmd val) s))[i]? = some 0)
      ∧ (send cmd val s).clk = s.clk + 256 := by
  have hcm : cmd % 256 = cmd := Nat.mod_eq_of_lt hc
  have hvm : val % 256 = val := Nat.mod_eq_of_lt hv
  have hfill : send_fill cmd val = [0xEB, cmd, 0x01, val, 0xED] ++ List.replicate 251 0 := by
    rw [send_fill_eq, hcm, hvm]
  have hem : emitted (send cmd val) s = frame_events cmd val := by
    apply emitted_append
    rw [send_eq, hcm, hvm]
  have hmosi : mosi (emitted (send cmd val) s)
      = [0xEB, cmd, 0x01, val, 0xED] ++ List.replicate 251 0 := by
    rw [hem, frame_events, mosi, mosi_discards]
  refine ⟨hfill, ?_, hmosi, ?_, ?_, ?_, ?_, ?_, ?_, ?_, ?_⟩
  · rw [hem]
    rfl
  · rw [hmosi]
    rfl
  · rw [hmosi]
    rfl
  · rw [hmosi]
    rfl
  · rw [hmosi]
    rfl
  · rw [hmosi]
    rfl
  · rw [hmosi]
    rfl
  · intro i h5 h256
    rw [hmosi, List.getElem?_append_right (by simpa using h5)]
    simp only [List.length_cons, List.length_nil]
    rw [List.getElem?_replicate]
    have : i - 5 < 251 := by omega
    simp [this]
  · rw [send_eq]

/-- C3, at the Distance command with value `LongDistance`. -/
theorem C3_send_frame_witness :
    (0x12 < 256 ∧ 0x01 < 256)
      ∧ send_fill 0x12 0x01 = [0xEB, 0x12, 0x01, 0x01, 0xED] ++ List.replicate 251 0
      ∧ (mosi (emitted (send 0x12 0x01) (idle zeroLine)))[1]? = some 0x12
      ∧ (mosi (emitted (send 0x12 0x01) (idle zeroLine)))[3]? = some 0x01 :=
  have h := C3_send_frame 0x12 0x01 (idle zeroLine) (by decide) (by decide)
  ⟨⟨by decide, by decide⟩, h.1, h.2.2.2.2.2.1, h.2.2.2.2.2.2.2.1⟩

/-- C4: on a 256-byte buffer, `check_magic` followed by `check_sequence_id`
accepts exactly when `buffer[0] == 0xE9` and `buffer[1] == buffer[255]`; a buffer
with another byte 0 is rejected by `check_magic` whatever the rest holds; and the
loop of `get_data` leaves through `break` exactly when the frame it has just
received satisfies both conditions. -/
theorem C4_frame_validation (s : State) (hlen : s.buffer.length = MMToF10_DATA_SIZE) :
    ((∃ s1, check_magic s = some (true, s1) ∧ check_sequence_id s1 = some true)
        ↔ (s.buffer[0]? = some 0xE9 ∧ s.buffer[1]? = s.buffer[255]?))
      ∧ (s.buffer[0]? ≠ some 0xE9 → ∃ s1, check_magic s = some (false, s1))
      ∧ (s.buffer[0]? = some 0xE9 → s.buffer[1]? = s.buffer[255]? →
          check_magic s = some (true, s) ∧ check_sequence_id s = some true)
      ∧ ((∃ s1, get_data_iter s = some (true, s1))
        ↔ ((spiTransferBuf MMToF10_DATA_SIZE s).buffer[0]? = some 0xE9
          ∧ (spiTransferBuf MMToF10_DATA_SIZE s).buffer[1]?
            = (spiTransferBuf MMToF10_DATA_SIZE s).buffer[255]?)) := by
  obtain ⟨b0, e0⟩ := buffer_at s hlen 0 (by decide)
  obtain ⟨b1, e1⟩ := buffer_at s hlen 1 (by decide)
  obtain ⟨b2, e2⟩ := buffer_at s hlen 2 (by decide)
  obtain ⟨b3, e3⟩ := buffer_at s hlen 3 (by decide)
  obtain ⟨b255, e255⟩ := buffer_at s hlen 255 (by decide)
  have hacc : s.buffer[0]? = some 0xE9 → s.buffer[1]? = s.buffer[255]? →
      check_magic s = some (true, s) ∧ check_sequence_id s = some true := by
    intro h0 h1
    refine ⟨check_magic_ok s h0, ?_⟩
    rw [check_sequence_id_eq s b1 b255 e1 e255]
    rw [e1, e255] at h1
    simp [Option.some.inj h1]
  have hrej : s.buffer[0]? ≠ some 0xE9 → ∃ s1, check_magic s = some (false, s1) := by
    intro h0
    have hne : b0 ≠ 0xe9 := by
      intro hc
      exact h0 (by rw [e0, hc])
    exact ⟨_, check_magic_bad s b0 b1 b2 b3 e0 e1 e2 e3 hne⟩
  refine ⟨⟨?_, ?_⟩, hrej, hacc, ⟨?_, ?_⟩⟩
  · rintro ⟨s1, hm, hs⟩
    by_cases h0 : s.buffer[0]? = some 0xE9
    · rw [check_magic_ok s h0] at hm
      have hs1 : s1 = s := by
        have := Option.some.inj hm
        exact (congrArg Prod.snd this).symm
      rw [hs1, check_sequence_id_eq s b1 b255 e1 e255] at hs
      have hb : b1 = b255 := by simpa using hs
      exact ⟨h0, by rw [e1, e255, hb]⟩
    · obtain ⟨s2, hbad⟩ := hrej h0
      rw [hbad] at hm
      simp at hm
  · rintro ⟨h0, h1⟩
    exact ⟨s, hacc h0 h1⟩
  · rintro ⟨s1, hit⟩
    by_cases h0 : (spiTransferBuf MMToF10_DATA_SIZE s).buffer[0]? = some 0xe9
    · by_cases h1 : (spiTransferBuf MMToF10_DATA_SIZE s).buffer[1]?
          = (spiTransferBuf MMToF10_DATA_SIZE s).buffer[255]?
      · exact ⟨h0, h1⟩
      · rw [get_data_iter_seq s h0 h1] at hit
        simp at hit
    · rw [get_data_iter_magic s h0] at hit
      simp at hit
  · rintro ⟨h0, h1⟩
    exact ⟨_, get_data_iter_ok s h0 h1⟩

/-- C4, at the frame of `goodLine`. -/
theorem C4_frame_validation_witness :
    (spiTransferBuf MMToF10_DATA_SIZE (idle goodLine)).buffer.length = MMToF10_DATA_SIZE
      ∧ ∃ s1, check_magic (spiTransferBuf MMToF10_DATA_SIZE (idle goodLine)) = some (true, s1)
        ∧ check_sequence_id s1 = some true :=
  have hlen : (spiTransferBuf MMToF10_DATA_SIZE (idle goodLine)).buffer.length
      = MMToF10_DATA_SIZE := by
    simp [spiTransferBuf, received_length, idle]
  ⟨hlen, (C4_frame_validation _ hlen).1.mpr ⟨by
      rw [frame_at _ 0 (by decide)]
      rfl, by
      rw [frame_at _ 1 (by decide), frame_at _ 255 (by decide)]
      rfl⟩⟩

/-- C5: when `get_data` returns, the buffer is exactly the 256 bytes received by
the full-frame transfer that ends the trace of the call, and it passes both
checks; and when the first 256 bytes on the bus form such a frame, `get_data`
returns for every positive fuel after that single transfer, having changed
nothing but the buffer, the bus position and the trace. -/
theorem C5_get_data_returns_validated :
    (∀ (fuel : Nat) (s s1 : State), s.buffer.length = MMToF10_DATA_SIZE →
        get_data fuel s = some s1 →
        s1.buffer.length = 256
          ∧ s.clk + 256 ≤ s1.clk
          ∧ s1.buffer = received s.miso (s1.clk - 256) 256
          ∧ (∃ mid out, s1.trace = s.trace ++ mid ++ [Event.transferBuf out] ∧ out.length = 256)
          ∧ s1.buffer[0]? = some 0xE9
          ∧ s1.buffer[1]? = s1.buffer[255]?)
      ∧ (∀ (n : Nat) (s : State), s.buffer.length = MMToF10_DATA_SIZE →
        s.miso s.clk % 256 = 0xE9 →
        s.miso (s.clk + 1) % 256 = s.miso (s.clk + 255) % 256 →
        get_data (n + 1) s = some
          { s with
            buffer := received s.miso s.clk 256
            clk := s.clk + 256
            trace := s.trace ++ [Event.transferBuf s.buffer] }) := by
  constructor
  · intro fuel s s1 hlen h
    obtain ⟨s0, e, hm, hl, hc, ⟨mid, ht⟩, h0, h1⟩ := get_data_some fuel s s1 h
    have hl0 : s0.buffer.length = 256 := hl hlen
    have hclk : s1.clk = s0.clk + 256 := by rw [e]; rfl
    have hsz : MMToF10_DATA_SIZE = 256 := rfl
    have hbuf : s1.buffer = received s.miso s0.clk 256 := by
      rw [e]
      simp only [spiTransferBuf, hm]
      rw [List.drop_of_length_le (by omega)]
      simp
    refine ⟨?_, ?_, ?_, ?_, h0, h1⟩
    · rw [hbuf, received_length]
    · omega
    · rw [hbuf, hclk]
      simp
    · refine ⟨mid, s0.buffer.take 256, ?_, ?_⟩
      · rw [e]
        simp only [spiTransferBuf, ht]
      · simp [hl0]
  · intro n s hlen hmagic hseq
    have hsz : MMToF10_DATA_SIZE = 256 := rfl
    have h0 : (spiTransferBuf MMToF10_DATA_SIZE s).buffer[0]? = some 0xe9 := by
      rw [frame_at s 0 (by decide)]
      exact congrArg some hmagic
    have h1 : (spiTransferBuf MMToF10_DATA_SIZE s).buffer[1]?
        = (spiTransferBuf MMToF10_DATA_SIZE s).buffer[255]? := by
      rw [frame_at s 1 (by decide), frame_at s 255 (by decide), hseq]
    simp only [get_data, get_data_iter_ok s h0 h1, spiTransferBuf]
    rw [List.drop_of_length_le (by omega), List.take_of_length_le (by omega)]
    simp

/-- C5, at the frame of `goodLine`: the call returns after one transfer. -/
theorem C5_get_data_returns_validated_witness :
    get_data 1 (idle goodLine) = some
        { idle goodLine with
          buffer := received goodLine 0 256
          clk := 256
          trace := [Event.transferBuf (List.replicate 256 0)] }
      ∧ (spiTransferBuf MMToF10_DATA_SIZE (idle goodLine)).buffer[0]? = some 0xE9 :=
  ⟨C5_get_data_returns_validated.2 0 (idle goodLine) rfl rfl rfl,
    (C5_get_data_returns_validated.1 1 (idle goodLine) _ rfl goodLine_returns).2.2.2.2.1⟩

/-- C7: after a frame with `buffer[0] == 0xE9` and `buffer[1] != buffer[255]` the
pass ends in `continue` in the state the transfer left: nothing but that transfer
is added to the trace, mode, distance and rate are as before, the loop goes on
from that state, and the next pass completes and opens with another 256-byte
buffer transfer. -/
theorem C7_sequence_error_retries (s : State) (n : Nat)
    (h0 : (spiTransferBuf MMToF10_DATA_SIZE s).buffer[0]? = some 0xE9)
    (h1 : (spiTransferBuf MMToF10_DATA_SIZE s).buffer[1]?
      ≠ (spiTransferBuf MMToF10_DATA_SIZE s).buffer[255]?) :
    get_data_iter s = some (false, spiTransferBuf MMToF10_DATA_SIZE s)
      ∧ get_data (n + 1) s = get_data n (spiTransferBuf MMToF10_DATA_SIZE s)
      ∧ (spiTransferBuf MMToF10_DATA_SIZE s).trace
        = s.trace ++ [Event.transferBuf (s.buffer.take 256)]
      ∧ (spiTransferBuf MMToF10_DATA_SIZE s).m_mode = s.m_mode
      ∧ (spiTransferBuf MMToF10_DATA_SIZE s).m_dist = s.m_dist
      ∧ (spiTransferBuf MMToF10_DATA_SIZE s).m_rate = s.m_rate
      ∧ ∃ (b : Bool) (s2 : State) (out : List Nat) (rest : List Event),
        get_data_iter (spiTransferBuf MMToF10_DATA_SIZE s) = some (b, s2)
          ∧ out.length = 256
          ∧ s2.trace = s.trace
            ++ [Event.transferBuf (s.buffer.take 256), Event.transferBuf out] ++ rest := by
  have hit := get_data_iter_seq s h0 h1
  refine ⟨hit, ?_, rfl, rfl, rfl, rfl, ?_⟩
  · simp only [get_data, hit]
  · obtain ⟨b, s2, rest, hnext, htr⟩ := get_data_iter_total (spiTransferBuf MMToF10_DATA_SIZE s)
    refine ⟨b, s2, _, rest, hnext, frame_take_length s, ?_⟩
    rw [htr]
    simp only [spiTransferBuf, List.append_assoc, List.singleton_append, List.cons_append,
      List.nil_append]

/-- C7, at the frame of `seqLine`, whose bytes 1 and 255 are 1 and 0. -/
theorem C7_sequence_error_retries_witness :
    (spiTransferBuf MMToF10_DATA_SIZE (idle seqLine)).buffer[0]? = some 0xE9
      ∧ (spiTransferBuf MMToF10_DATA_SIZE (idle seqLine)).buffer[1]?
        ≠ (spiTransferBuf MMToF10_DATA_SIZE (idle seqLine)).buffer[255]?
      ∧ get_data_iter (idle seqLine)
        = some (false, spiTransferBuf MMToF10_DATA_SIZE (idle seqLine)) :=
  have h0 : (spiTransferBuf MMToF10_DATA_SIZE (idle seqLine)).buffer[0]? = some 0xE9 := by
    rw [frame_at _ 0 (by decide)]
    rfl
  have h1 : (spiTransferBuf MMToF10_DATA_SIZE (idle seqLine)).buffer[1]?
      ≠ (spiTransferBuf MMToF10_DATA_SIZE (idle seqLine)).buffer[255]? := by
    rw [frame_at _ 1 (by decide), frame_at _ 255 (by decide)]
    decide
  ⟨h0, h1, (C7_sequence_error_retries (idle seqLine) 0 h0 h1).1⟩

/-- C8: after a frame with `buffer[0] != 0xE9` the pass ends in `continue`
whatever bytes 1 and 255 hold, and between the transfer of that frame and the
next pass the trace holds, in this order: the four `printf` calls, `sync()` (256
discards, 500 ms, the mode-select frame `0xEB 0x00 0x01 0xFF 0xED` with its 251
padding bytes, 500 ms, 256 discards, the length byte and as many discards as it
says) and `nomal(ShortDistance, LowSpeed)`. -/
theorem C8_magic_error_resyncs (s : State) (n : Nat)
    (h0 : (spiTransferBuf MMToF10_DATA_SIZE s).buffer[0]? ≠ some 0xE9) :
    ∃ s2 : State, get_data_iter s = some (false, s2)
      ∧ get_data (n + 1) s = get_data n s2
      ∧ s2.trace = s.trace
        ++ [Event.transferBuf (s.buffer.take 256)]
        ++ [Event.printf (s.miso (s.clk + 0) % 256), Event.printf (s.miso (s.clk + 1) % 256),
            Event.printf (s.miso (s.clk + 2) % 256), Event.printf (s.miso (s.clk + 3) % 256)]
        ++ (List.replicate 256 (Event.transfer 0)
          ++ [Event.delay 500]
          ++ [Event.transferBuf [0xEB, 0x00, 0x01, 0xFF, 0xED]]
          ++ List.replicate 251 (Event.transfer 0)
          ++ [Event.delay 500]
          ++ List.replicate 256 (Event.transfer 0)
          ++ List.replicate (1 + s.miso (s.clk + 1024) % 256) (Event.transfer 0))
        ++ nomal_events MMToF10_Distance.ShortDistance MMToF10_Rate.LowSpeed
      ∧ s2.m_mode = MMToF10_Mode.NomalMode
      ∧ s2.clk = s.clk + (2561 + s.miso (s.clk + 1024) % 256) := by
  have hit := get_data_iter_magic s h0
  rw [recovery_eq] at hit
  refine ⟨_, hit, ?_, ?_, rfl, rfl⟩
  · simp only [get_data, hit]
  · simp only [sync_events, setMode_events, frame_events, discards, MMToF10_Mode.toNat,
      List.append_assoc, List.singleton_append, List.cons_append, List.nil_append]

/-- C8, at the frame of `badMagicLine`: byte 0 is `0xE8` and bytes 1 and 255 agree. -/
theorem C8_magic_error_resyncs_witness :
    (spiTransferBuf MMToF10_DATA_SIZE (idle badMagicLine)).buffer[0]? = some 0xE8
      ∧ check_sequence_id (spiTransferBuf MMToF10_DATA_SIZE (idle badMagicLine)) = some true
      ∧ ∃ s2 : State, get_data_iter (idle badMagicLine) = some (false, s2)
        ∧ s2.clk = 2561 :=
  have h0 : (spiTransferBuf MMToF10_DATA_SIZE (idle badMagicLine)).buffer[0]? = some 0xE8 := by
    rw [frame_at _ 0 (by decide)]
    rfl
  have hs : check_sequence_id (spiTransferBuf MMToF10_DATA_SIZE (idle badMagicLine))
      = some true := by
    rw [check_sequence_id_eq _ _ _ (frame_at _ 1 (by decide)) (frame_at _ 255 (by decide))]
    rfl
  match C8_magic_error_resyncs (idle badMagicLine) 0 (by rw [h0]; decide) with
  | ⟨s2, hit, _, _, _, hclk⟩ => ⟨h0, hs, s2, hit, hclk⟩

/-- C6: the recovery of `get_data` at a driver configured by
`nomal(LongDistance, HighSpeed)` whose next frame starts with `0x00`.  The
recorded distance and rate are `LongDistance` and `HighSpeed` before the pass;
the pass sends the Distance command with value `0x00` and the rate command
`0x10`, and leaves `ShortDistance` and `LowSpeed` recorded. -/
theorem C6_recovery_uses_fixed_configuration :
    (nomal MMToF10_Distance.LongDistance MMToF10_Rate.HighSpeed (idle zeroLine)).m_dist
        = MMToF10_Distance.LongDistance
      ∧ (nomal MMToF10_Distance.LongDistance MMToF10_Rate.HighSpeed (idle zeroLine)).m_rate
        = MMToF10_Rate.HighSpeed
      ∧ (spiTransferBuf MMToF10_DATA_SIZE
          (nomal MMToF10_Distance.LongDistance MMToF10_Rate.HighSpeed
            (idle zeroLine))).buffer[0]? = some 0x00
      ∧ ∃ s2 : State,
        get_data_iter (nomal MMToF10_Distance.LongDistance MMToF10_Rate.HighSpeed (idle zeroLine))
            = some (false, s2)
          ∧ s2.m_dist = MMToF10_Distance.ShortDistance
          ∧ s2.m_rate = MMToF10_Rate.LowSpeed
          ∧ bufferPayloads (s2.trace.drop
              (nomal MMToF10_Distance.LongDistance MMToF10_Rate.HighSpeed
                (idle zeroLine)).trace.length)
            = [received zeroLine 1024 5 ++ List.replicate 251 0,
                [0xEB, 0x00, 0x01, 0xFF, 0xED], [0xEB, 0x00, 0x01, 0x00, 0xED],
                [0xEB, 0x12, 0x01, 0x00, 0xED], [0xEB, 0x10, 0x01, 0x00, 0xED]] := by
  have h0 : (spiTransferBuf MMToF10_DATA_SIZE
      (nomal MMToF10_Distance.LongDistance MMToF10_Rate.HighSpeed
        (idle zeroLine))).buffer[0]? = some 0x00 := by
    rw [frame_at _ 0 (by decide), nomal_eq]
    rfl
  have hne : (spiTransferBuf MMToF10_DATA_SIZE
      (nomal MMToF10_Distance.LongDistance MMToF10_Rate.HighSpeed
        (idle zeroLine))).buffer[0]? ≠ some 0xe9 := by
    rw [h0]
    decide
  have hit := get_data_iter_magic _ hne
  rw [recovery_eq] at hit
  refine ⟨by rw [nomal_eq], by rw [nomal_eq], h0, _, hit, rfl, rfl, ?_⟩
  simp only [List.drop_left, bufferPayloads, bufferPayloads_append, bufferPayloads_sync,
    bufferPayloads_nomal, MMToF10_Distance.toNat, MMToF10_Rate.toNat, MMToF10_Command.toNat,
    nomal_eq, idle, List.nil_append, List.cons_append, List.append_nil]
  rfl

/-- C9, refuted: on the line `lenLine` the first `sync()` reads the length byte 2
and the second the length byte 0, so the two calls do not issue the same
sequence of single-byte discards. -/
theorem C9_sync_twice_differs :
    discardOps (emitted sync (idle lenLine)) ≠ discardOps (emitted sync (sync (idle lenLine))) := by
  rw [emitted_sync, emitted_sync, discardOps_sync_events, discardOps_sync_events, sync_eq]
  intro h
  have hl := (discards_inj _ _).mp h
  revert hl
  decide

/-- C9, amended: `sync()` issues 256 discards, a 500 ms delay, the mode-select
frame `0xEB 0x00 0x01 0xFF 0xED` with its 251 padding bytes, a 500 ms delay, 256
discards and then `1 + n` single-byte transfers, `n` being the byte the device
returns at the 769th position of the call.  The sequence is the same for any
two states with the same bus input and position, and two calls in a row issue
the same discards exactly when their two length bytes are equal. -/
theorem C9_sync_operations (s : State) :
    emitted sync s
        = List.replicate 256 (Event.transfer 0)
          ++ [Event.delay 500]
          ++ [Event.transferBuf [0xEB, 0x00, 0x01, 0xFF, 0xED]]
          ++ List.replicate 251 (Event.transfer 0)
          ++ [Event.delay 500]
          ++ List.replicate 256 (Event.transfer 0)
          ++ List.replicate (1 + s.miso (s.clk + 768) % 256) (Event.transfer 0)
      ∧ discardOps (emitted sync s)
        = List.replicate (764 + s.miso (s.clk + 768) % 256) (Event.transfer 0)
      ∧ (∀ t : State, t.miso = s.miso → t.clk = s.clk → emitted sync t = emitted sync s)
      ∧ (discardOps (emitted sync s) = discardOps (emitted sync (sync s))
        ↔ s.miso (s.clk + 768) % 256
          = s.miso (s.clk + (769 + s.miso (s.clk + 768) % 256) + 768) % 256) := by
  refine ⟨?_, ?_, ?_, ?_⟩
  · rw [emitted_sync]
    simp only [sync_events, setMode_events, frame_events, discards, MMToF10_Mode.toNat,
      List.append_assoc, List.singleton_append, List.cons_append, List.nil_append]
  · rw [emitted_sync, discardOps_sync_events]
    rfl
  · intro t hm hc
    rw [emitted_sync, emitted_sync, hm, hc]
  · rw [emitted_sync, emitted_sync, discardOps_sync_events, discardOps_sync_events, sync_eq,
      discards_inj]
    constructor
    · intro h
      exact Nat.add_left_cancel h
    · intro h
      exact congrArg (764 + ·) h

/-- C10, refuted: on the frame of `goodLine`, whose first grid cell is
`00 80 00 01`, `get3d` stores the float `8192001 / 4096` at `out[0]`, which is
not the value `100000011921 / 50000000` the range rule has in exact rational
arithmetic. -/
theorem C10_get3d_not_exact :
    get_data 1 (idle goodLine) = some (spiTransferBuf MMToF10_DATA_SIZE (idle goodLine))
      ∧ decodeRange (be32 0x00 0x80 0x00 0x01) = 100000011921 / 50000000
      ∧ ∃ out1 : Nat → ℚ,
        get3d 1 (fun _ => 0) (idle goodLine)
            = some (out1, spiTransferBuf MMToF10_DATA_SIZE (idle goodLine))
          ∧ out1 0 = 8192001 / 4096
          ∧ out1 0 ≠ decodeRange (be32 0x00 0x80 0x00 0x01) := by
  obtain ⟨out1, hrun, hcell, _⟩ :=
    get3d_cells 1 (fun _ => 0) (idle goodLine) _ goodLine_returns
  obtain ⟨b0, b1, b2, b3, e0, e1, e2, e3, e⟩ := hcell 0 (by decide)
  rw [frame_at _ _ (by decide)] at e0 e1 e2 e3
  have hb0 : b0 = 0x00 := (Option.some.inj e0).symm
  have hb1 : b1 = 0x80 := (Option.some.inj e1).symm
  have hb2 : b2 = 0x00 := (Option.some.inj e2).symm
  have hb3 : b3 = 0x01 := (Option.some.inj e3).symm
  subst hb0 hb1 hb2 hb3
  rw [range_value_raw32 _ _ _ _ (by decide) (by decide) (by decide) (by decide),
    decodeRangeFloat_cell] at e
  refine ⟨goodLine_returns, decodeRange_cell, out1, hrun, e, ?_⟩
  rw [e, decodeRange_cell]
  norm_num

/-- C10, amended: whenever `get_data` returns with the frame `s1`, `get3d` returns
for the same input, and in the memory behind `ptr` every position `k < 32` holds
the range rule of `get1d`, evaluated in floating point as there (product and sum
rounded to `double`, result narrowed to `float`), applied to the 32-bit
big-endian value of bytes `10 + 4k .. 10 + 4k + 3` of the frame, position
`8 * row + col` being the cell of `row` and `col` in the 4 x 8 grid; the float is
within 0.01563 of the exact value of the rule; every position from 32 on is as
before. -/
theorem C10_get3d_decodes_grid (fuel : Nat) (out : Nat → ℚ) (s s1 : State)
    (h : get_data fuel s = some s1) :
    ∃ out1 : Nat → ℚ, get3d fuel out s = some (out1, s1)
      ∧ (∀ k, k < 32 → ∃ b0 b1 b2 b3 : Nat,
          s1.buffer[10 + 4 * k]? = some b0 ∧ s1.buffer[10 + 4 * k + 1]? = some b1
            ∧ s1.buffer[10 + 4 * k + 2]? = some b2 ∧ s1.buffer[10 + 4 * k + 3]? = some b3
            ∧ out1 k = decodeRangeFloat (be32 b0 b1 b2 b3)
            ∧ decodeRange (be32 b0 b1 b2 b3) - 0.01563 < out1 k
            ∧ out1 k < decodeRange (be32 b0 b1 b2 b3) + 0.01563)
      ∧ (∀ row col, row < MMToF10_ROWSIZE → col < MMToF10_COLSIZE → ∃ b0 b1 b2 b3 : Nat,
          s1.buffer[10 + 4 * (MMToF10_COLSIZE * row + col)]? = some b0
            ∧ s1.buffer[10 + 4 * (MMToF10_COLSIZE * row + col) + 1]? = some b1
            ∧ s1.buffer[10 + 4 * (MMToF10_COLSIZE * row + col) + 2]? = some b2
            ∧ s1.buffer[10 + 4 * (MMToF10_COLSIZE * row + col) + 3]? = some b3
            ∧ out1 (MMToF10_COLSIZE * row + col) = decodeRangeFloat (be32 b0 b1 b2 b3))
      ∧ (∀ k, 32 ≤ k → out1 k = out k) := by
  have hb : ∀ i, i < 256 → ∃ b, s1.buffer[i]? = some b ∧ b < 256 :=
    fun i hi => get_data_byte fuel s s1 h i hi
  obtain ⟨out1, hrun, hin, hout⟩ := get3d_loop_eq s1.buffer hb 32 0 0 out rfl
  have hcell : ∀ k, k < 32 → ∃ b0 b1 b2 b3 : Nat,
      s1.buffer[10 + 4 * k]? = some b0 ∧ s1.buffer[10 + 4 * k + 1]? = some b1
        ∧ s1.buffer[10 + 4 * k + 2]? = some b2 ∧ s1.buffer[10 + 4 * k + 3]? = some b3
        ∧ out1 k = decodeRangeFloat (be32 b0 b1 b2 b3) := by
    intro k hk
    obtain ⟨b0, e0, _⟩ := hb (10 + 4 * k) (by omega)
    obtain ⟨b1, e1, _⟩ := hb (10 + 4 * k + 1) (by omega)
    obtain ⟨b2, e2, _⟩ := hb (10 + 4 * k + 2) (by omega)
    obtain ⟨b3, e3, _⟩ := hb (10 + 4 * k + 3) (by omega)
    refine ⟨b0, b1, b2, b3, e0, e1, e2, e3, ?_⟩
    have e := hin k hk
    simp only [Nat.zero_add] at e
    rw [e]
    simp [List.getD_eq_getElem?_getD, e0, e1, e2, e3]
  refine ⟨out1, ?_, ?_, ?_, ?_⟩
  · have hrun2 : get3d_loop s1.buffer OFFSET_3D 0 out = some out1 := hrun
    simp [get3d, h, hrun2]
  · intro k hk
    obtain ⟨b0, b1, b2, b3, e0, e1, e2, e3, e⟩ := hcell k hk
    obtain ⟨hlo, hhi⟩ := decodeRangeFloat_err (be32 b0 b1 b2 b3)
    refine ⟨b0, b1, b2, b3, e0, e1, e2, e3, e, ?_, ?_⟩
    · rw [e]
      exact hlo
    · rw [e]
      exact hhi
  · intro row col hr hc
    apply hcell
    simp only [MMToF10_ROWSIZE, MMToF10_COLSIZE] at hr hc ⊢
    omega
  · intro k hk
    exact hout k (Or.inr (by omega))

/-- C10, at the frame of `goodLine`, whose first grid cell is `00 80 00 01`: the
float stored at `out[0]` is `8192001 / 4096`, and `out[32]` is untouched. -/
theorem C10_get3d_decodes_grid_witness :
    get_data 1 (idle goodLine) = some (spiTransferBuf MMToF10_DATA_SIZE (idle goodLine))
      ∧ ∃ out1 : Nat → ℚ,
        get3d 1 (fun _ => 0) (idle goodLine)
            = some (out1, spiTransferBuf MMToF10_DATA_SIZE (idle goodLine))
          ∧ out1 0 = decodeRangeFloat (be32 0x00 0x80 0x00 0x01)
          ∧ out1 32 = 0 := by
  obtain ⟨out1, hrun, hcell, _, hrest⟩ :=
    C10_get3d_decodes_grid 1 (fun _ => 0) (idle goodLine) _ goodLine_returns
  refine ⟨goodLine_returns, out1, hrun, ?_, hrest 32 (Nat.le_refl _)⟩
  obtain ⟨b0, b1, b2, b3, e0, e1, e2, e3, e, _, _⟩ := hcell 0 (by decide)
  rw [frame_at _ _ (by decide)] at e0 e1 e2 e3
  rw [e, ← Option.some.inj e0, ← Option.some.inj e1, ← Option.some.inj e2,
    ← Option.some.inj e3]
  rfl

/-- C11: whenever `get_data` returns with the frame `s1`, `get3p` returns for the
same input, and in the `uint16_t` memory behind `ptr` every position `k < 32`
holds `floor((256 * buffer[138 + 2k] + buffer[139 + 2k]) / 16)`, the fields
starting at offset `10 + 128 = 138` right after the 128 bytes of the range
array; every position from 32 on is as before. -/
theorem C11_get3p_decodes_grid (fuel : Nat) (out : Nat → Nat) (s s1 : State)
    (h : get_data fuel s = some s1) :
    ∃ out1 : Nat → Nat, get3p fuel out s = some (out1, s1)
      ∧ (∀ k, k < 32 → ∃ hi lo : Nat,
          s1.buffer[138 + 2 * k]? = some hi ∧ s1.buffer[139 + 2 * k]? = some lo
            ∧ out1 k = (256 * hi + lo) / 16)
      ∧ (∀ k, 32 ≤ k → out1 k = out k)
      ∧ OFFSET_3D + MMToF10_PIXELS * sizeof_uint32_t = 138 := by
  have hb : ∀ i, i < 256 → ∃ b, s1.buffer[i]? = some b ∧ b < 256 :=
    fun i hi => get_data_byte fuel s s1 h i hi
  obtain ⟨out1, hrun, hin, hout⟩ := get3p_loop_eq s1.buffer hb 32 0 0 out rfl
  refine ⟨out1, ?_, ?_, ?_, rfl⟩
  · have hrun2 : get3p_loop s1.buffer (4 * 8 * 4 + 10) 0 out = some out1 := hrun
    simp [get3p, h, hrun2]
  · intro k hk
    obtain ⟨b0, e0, _⟩ := hb (138 + 2 * k) (by omega)
    obtain ⟨b1, e1, _⟩ := hb (139 + 2 * k) (by omega)
    refine ⟨b0, b1, e0, e1, ?_⟩
    have e := hin k hk
    simp only [Nat.zero_add] at e
    rw [e]
    simp [List.getD_eq_getElem?_getD, e0, e1]
  · intro k hk
    exact hout k (Or.inr (by omega))

/-- C11, at the frame of `gridLine`, whose bytes 138..139 are `12 34`: the first
cell is `0x123` and position 32 keeps its old value. -/
theorem C11_get3p_decodes_grid_witness :
    get_data 1 (idle gridLine) = some (spiTransferBuf MMToF10_DATA_SIZE (idle gridLine))
      ∧ ∃ out1 : Nat → Nat,
        get3p 1 (fun _ => 7) (idle gridLine)
            = some (out1, spiTransferBuf MMToF10_DATA_SIZE (idle gridLine))
          ∧ out1 0 = 0x123
          ∧ out1 32 = 7 := by
  have hret := idle_returns gridLine rfl rfl
  obtain ⟨out1, hrun, hcell, hrest, _⟩ :=
    C11_get3p_decodes_grid 1 (fun _ => 7) (idle gridLine) _ hret
  refine ⟨hret, out1, hrun, ?_, hrest 32 (Nat.le_refl _)⟩
  obtain ⟨hi, lo, e0, e1, e⟩ := hcell 0 (by decide)
  rw [frame_at _ _ (by decide)] at e0 e1
  rw [e, ← Option.some.inj e0, ← Option.some.inj e1]
  rfl

/-- C12: `nomal(dist, rate)` records `dist`, `rate` and the mode `NomalMode`, and
appends exactly this to the trace: 256 discards, 500 ms, the mode-select frame
`0xEB 0x00 0x01 0x00 0xED` and its 251 padding bytes, 500 ms, the Distance frame
`0xEB 0x12 0x01 dist 0xED` and padding, 500 ms, 256 discards, the rate frame
`0xEB rate 0x01 0x00 0xED` and padding, 500 ms, 256 discards.  The padding of a
frame is shifted out as 251 single zero bytes. -/
theorem C12_nomal_trace (dist : MMToF10_Distance) (rate : MMToF10_Rate) (s : State) :
    (nomal dist rate s).m_dist = dist
      ∧ (nomal dist rate s).m_rate = rate
      ∧ (nomal dist rate s).m_mode = MMToF10_Mode.NomalMode
      ∧ emitted (nomal dist rate) s
        = List.replicate 256 (Event.transfer 0)
          ++ [Event.delay 500]
          ++ [Event.transferBuf [0xEB, 0x00, 0x01, 0x00, 0xED]]
          ++ List.replicate 251 (Event.transfer 0)
          ++ [Event.delay 500]
          ++ [Event.transferBuf [0xEB, 0x12, 0x01, dist.toNat, 0xED]]
          ++ List.replicate 251 (Event.transfer 0)
          ++ [Event.delay 500]
          ++ List.replicate 256 (Event.transfer 0)
          ++ [Event.transferBuf [0xEB, rate.toNat, 0x01, 0x00, 0xED]]
          ++ List.replicate 251 (Event.transfer 0)
          ++ [Event.delay 500]
          ++ List.replicate 256 (Event.transfer 0)
      ∧ mosi (emitted (nomal dist rate) s)
        = List.replicate 256 0
          ++ ([0xEB, 0x00, 0x01, 0x00, 0xED] ++ List.replicate 251 0)
          ++ ([0xEB, 0x12, 0x01, dist.toNat, 0xED] ++ List.replicate 251 0)
          ++ List.replicate 256 0
          ++ ([0xEB, rate.toNat, 0x01, 0x00, 0xED] ++ List.replicate 251 0)
          ++ List.replicate 256 0
      ∧ (rate.toNat = 0x10 ∨ rate.toNat = 0x11) := by
  refine ⟨by rw [nomal_eq], by rw [nomal_eq], by rw [nomal_eq], ?_, ?_, ?_⟩
  · rw [emitted_nomal]
    simp only [nomal_events, setMode_events, frame_events, discards, MMToF10_Mode.toNat,
      List.append_assoc, List.singleton_append, List.cons_append, List.nil_append]
  · rw [emitted_nomal, mosi_nomal_events]
  · cases rate
    · exact Or.inl rfl
    · exact Or.inr rfl

/-- C13: `skip(cnt)` is a total function that issues exactly `max(cnt, 0)`
single-byte transfers of `0x00` and changes nothing but the bus position and the
trace; `skip()` issues one transfer, masks the byte it returns to 8 bits, and
issues exactly that many further transfers, at most 256 in all; what either of
them issues does not depend on any other byte of the bus. -/
theorem C13_skip_counts (cnt : Int) (s : State) :
    skip cnt s
        = { s with
            clk := s.clk + (max cnt 0).toNat
            trace := s.trace ++ List.replicate (max cnt 0).toNat (Event.transfer 0) }
      ∧ emitted (skip cnt) s = List.replicate (max cnt 0).toNat (Event.transfer 0)
      ∧ (∀ t : State, emitted (skip cnt) t = emitted (skip cnt) s)
      ∧ skip_void s
        = { s with
            clk := s.clk + (1 + ((spiTransfer 0 s).1 &&& BYTE_MASK))
            trace := s.trace
              ++ List.replicate (1 + ((spiTransfer 0 s).1 &&& BYTE_MASK)) (Event.transfer 0) }
      ∧ emitted skip_void s
        = List.replicate (1 + ((spiTransfer 0 s).1 &&& BYTE_MASK)) (Event.transfer 0)
      ∧ 1 + ((spiTransfer 0 s).1 &&& BYTE_MASK) ≤ 256
      ∧ (∀ t : State, (spiTransfer 0 t).1 = (spiTransfer 0 s).1 →
          emitted skip_void t = emitted skip_void s) := by
  have hmax : (max cnt 0).toNat = cnt.toNat := by
    rcases le_total cnt 0 with h | h
    · rw [max_eq_right h]
      have : cnt.toNat = 0 := Int.toNat_eq_zero.mpr h
      rw [this]
      rfl
    · rw [max_eq_left h]
  have hm : ∀ t : State, (spiTransfer 0 t).1 &&& BYTE_MASK = t.miso t.clk % 256 := by
    intro t
    have := Nat.and_pow_two_sub_one_eq_mod (t.miso t.clk % 256) 8
    simpa [spiTransfer] using this
  refine ⟨?_, ?_, ?_, ?_, ?_, ?_, ?_⟩
  · rw [hmax, skip_eq]
    rfl
  · rw [hmax, emitted_skip]
    rfl
  · intro t
    rw [emitted_skip, emitted_skip]
  · rw [hm, skip_void_eq]
    rfl
  · rw [hm, emitted_skip_void]
    rfl
  · rw [hm]
    have := Nat.mod_lt (s.miso s.clk) (by decide : 0 < 256)
    omega
  · intro t ht
    have h1 := hm t
    have h2 := hm s
    rw [ht] at h1
    rw [emitted_skip_void, emitted_skip_void, ← h1, ← h2]

/-- C14: on a line that never carries the byte `0xE9` (the all-zero line is one)
`get_data` never returns: it yields no result for any fuel, while for every `N`
the loop reaches a state after `N` passes, all ended in `continue`, in which it
has made exactly `N` full-frame transfers; the next pass from there again ends
in `continue`, through `sync()` and `nomal(ShortDistance, LowSpeed)`. -/
theorem C14_get_data_unbounded (s : State) (hlen : s.buffer.length = MMToF10_DATA_SIZE)
    (hz : ∀ i, s.miso i % 256 ≠ 0xE9) :
    (∀ fuel, get_data fuel s = none)
      ∧ ∀ N, ∃ sN : State, get_data_passes N s = some sN
        ∧ fullFrames sN.trace = fullFrames s.trace + N
        ∧ (∀ fuel, get_data (N + fuel) s = get_data fuel sN)
        ∧ get_data_iter sN = some (false,
            nomal MMToF10_Distance.ShortDistance MMToF10_Rate.LowSpeed
              (sync (printf (sN.miso (sN.clk + 3) % 256) (printf (sN.miso (sN.clk + 2) % 256)
                (printf (sN.miso (sN.clk + 1) % 256) (printf (sN.miso (sN.clk + 0) % 256)
                  (spiTransferBuf MMToF10_DATA_SIZE sN))))))) := by
  constructor
  · intro fuel
    obtain ⟨sN, _, _, _, _, _, hg⟩ := passes_without_magic fuel s hlen hz
    have := hg 0
    rw [Nat.add_zero, get_data_zero] at this
    exact this
  · intro N
    obtain ⟨sN, hp, _, hm, hf, _, hg⟩ := passes_without_magic N s hlen hz
    refine ⟨sN, hp, hf, hg, ?_⟩
    apply get_data_iter_magic
    rw [frame_at sN 0 (by decide), hm]
    intro hc
    exact hz _ (Option.some.inj hc)

/-- C14, on the all-zero line: no result with fuel 1000, and a state after three
passes with three full-frame transfers. -/
theorem C14_get_data_unbounded_witness :
    (idle zeroLine).buffer.length = MMToF10_DATA_SIZE
      ∧ (∀ i, (idle zeroLine).miso i % 256 ≠ 0xE9)
      ∧ get_data 1000 (idle zeroLine) = none
      ∧ ∃ s3 : State, get_data_passes 3 (idle zeroLine) = some s3
        ∧ fullFrames s3.trace = 3 :=
  have hlen : (idle zeroLine).buffer.length = MMToF10_DATA_SIZE := rfl
  have hz : ∀ i, (idle zeroLine).miso i % 256 ≠ 0xE9 := fun _ =>
    (by decide : (0 : Nat) % 256 ≠ 0xE9)
  have h := C14_get_data_unbounded (idle zeroLine) hlen hz
  match h.2 3 with
  | ⟨s3, hp, hf, _, _⟩ => ⟨hlen, hz, h.1 1000, s3, hp, hf⟩

/-- C15: whatever the arguments and the bus input, `send` clocks exactly 256
bytes, `setMode` 512, `led` 768 and `nomal` 1536, that is 1, 2, 3 and 6 frames of
256 bytes, both as the advance of the bus position and as the number of bytes
shifted out; `sync` clocks `769 + n` bytes, `n` being the length byte its
`skip()` reads at the 769th position. -/
theorem C15_frame_alignment (cmd val r g b : Nat) (mode : MMToF10_Mode)
    (dist : MMToF10_Distance) (rate : MMToF10_Rate) (s : State) :
    ((send cmd val s).clk = s.clk + 1 * MMToF10_DATA_SIZE
        ∧ (mosi (emitted (send cmd val) s)).length = 1 * MMToF10_DATA_SIZE)
      ∧ ((setMode mode s).clk = s.clk + 2 * MMToF10_DATA_SIZE
        ∧ (mosi (emitted (setMode mode) s)).length = 2 * MMToF10_DATA_SIZE)
      ∧ ((led r g b s).clk = s.clk + 3 * MMToF10_DATA_SIZE
        ∧ (mosi (emitted (led r g b) s)).length = 3 * MMToF10_DATA_SIZE)
      ∧ ((nomal dist rate s).clk = s.clk + 6 * MMToF10_DATA_SIZE
        ∧ (mosi (emitted (nomal dist rate) s)).length = 6 * MMToF10_DATA_SIZE)
      ∧ ((sync s).clk = s.clk + (769 + s.miso (s.clk + 768) % 256)
        ∧ (mosi (emitted sync s)).length = 769 + s.miso (s.clk + 768) % 256
        ∧ (spiTransfer 0 (skip MMToF10_DATA_SIZE (setMode MMToF10_Mode.SyncMode s))).1
            &&& BYTE_MASK = s.miso (s.clk + 768) % 256)
      ∧ (1 * MMToF10_DATA_SIZE = 256 ∧ 2 * MMToF10_DATA_SIZE = 512
        ∧ 3 * MMToF10_DATA_SIZE = 768 ∧ 6 * MMToF10_DATA_SIZE = 1536) := by
  refine ⟨⟨?_, ?_⟩, ⟨?_, ?_⟩, ⟨?_, ?_⟩, ⟨?_, ?_⟩, ⟨?_, ?_, ?_⟩, ⟨rfl, rfl, rfl, rfl⟩⟩
  · rw [send_eq]
    rfl
  · rw [emitted_send, mosi_frame_events_length]
    rfl
  · rw [setMode_eq]
    rfl
  · rw [emitted_setMode, mosi_setMode_events_length]
    rfl
  · rw [led_eq]
    rfl
  · rw [emitted_led, mosi_append, mosi_append, List.length_append, List.length_append,
      mosi_frame_events_length, mosi_frame_events_length, mosi_frame_events_length]
    rfl
  · rw [nomal_eq]
    rfl
  · rw [emitted_nomal, mosi_nomal_events_length]
    rfl
  · rw [sync_eq]
  · rw [emitted_sync, mosi_sync_events_length]
  · have h256 : ((MMToF10_DATA_SIZE : Nat) : Int).toNat = 256 := by decide
    rw [setMode_eq, skip_eq, h256]
    have := Nat.and_pow_two_sub_one_eq_mod (s.miso (s.clk + 512 + 256) % 256) 8
    simpa [spiTransfer] using this

/-- C16: for 16-bit raw values `r` and `r'` (bytes `r / 256`, `r % 256`), the
value `get1p` computes from the field `r` is `q / 16` with `q = floor(r / 16)`,
exactly; it is monotone in `r`, the same for raw values with the same `q`, lies
in `[0, 255.9375]`, and is one sixteenth of what `get3p` stores for a field
with the same two bytes. -/
theorem C16_intensity_is_scaling (r r' : Nat) (hr : r < 65536) (hr' : r' < 65536) :
    be16 (r / 256) (r % 256) = r
      ∧ intensity_value (raw16 (r / 256) (r % 256)) = ((r / 16 : Nat) : ℚ) / 16
      ∧ (r ≤ r' → intensity_value (raw16 (r / 256) (r % 256))
          ≤ intensity_value (raw16 (r' / 256) (r' % 256)))
      ∧ (r / 16 = r' / 16 → intensity_value (raw16 (r / 256) (r % 256))
          = intensity_value (raw16 (r' / 256) (r' % 256)))
      ∧ 0 ≤ intensity_value (raw16 (r / 256) (r % 256))
      ∧ intensity_value (raw16 (r / 256) (r % 256)) ≤ 255.9375
      ∧ (∀ (fuel : Nat) (s s1 : State), get_data fuel s = some s1 →
          s1.buffer[8]? = some (r / 256) → s1.buffer[9]? = some (r % 256) →
          get1p fuel s = some (((r / 16 : Nat) : ℚ) / 16, s1))
      ∧ (∀ (fuel : Nat) (out : Nat → Nat) (s s1 : State) (k : Nat), k < 32 →
          get_data fuel s = some s1 →
          s1.buffer[138 + 2 * k]? = some (r / 256) →
          s1.buffer[139 + 2 * k]? = some (r % 256) →
          ∃ out1 : Nat → Nat, get3p fuel out s = some (out1, s1)
            ∧ intensity_value (raw16 (r / 256) (r % 256)) = (out1 k : ℚ) / 16) := by
  have hv : ∀ x, x < 65536 →
      intensity_value (raw16 (x / 256) (x % 256)) = ((x / 16 : Nat) : ℚ) / 16 := by
    intro x hx
    rw [raw16_split x hx, intensity_value_eq]
  refine ⟨be16_split r, hv r hr, ?_, ?_, ?_, ?_, ?_, ?_⟩
  · intro hle
    rw [hv r hr, hv r' hr']
    have hq : r / 16 ≤ r' / 16 := Nat.div_le_div_right hle
    have hq2 : ((r / 16 : Nat) : ℚ) ≤ ((r' / 16 : Nat) : ℚ) := by exact_mod_cast hq
    linarith
  · intro he
    rw [hv r hr, hv r' hr', he]
  · rw [hv r hr]
    positivity
  · rw [hv r hr]
    have hq : r / 16 ≤ 4095 := by omega
    have hq2 : ((r / 16 : Nat) : ℚ) ≤ 4095 := by exact_mod_cast hq
    norm_num
    linarith
  · intro fuel s s1 h e8 e9
    rw [get1p_value fuel s s1 _ _ h e8 e9, hv r hr]
  · intro fuel out s s1 k hk h e0 e1
    obtain ⟨out1, hrun, hcell, _⟩ := get3p_cells fuel out s s1 h
    refine ⟨out1, hrun, ?_⟩
    rw [hcell k _ _ hk e0 e1, intensity_value_eq]

/-- C16, at `r = 0x0030` and `r' = 0x0040`: the values are 0.1875 and 0.25. -/
theorem C16_intensity_is_scaling_witness :
    (0x0030 < 65536 ∧ 0x0040 < 65536)
      ∧ intensity_value (raw16 (0x0030 / 256) (0x0030 % 256)) = 0.1875
      ∧ intensity_value (raw16 (0x0030 / 256) (0x0030 % 256))
        ≤ intensity_value (raw16 (0x0040 / 256) (0x0040 % 256)) := by
  have h := C16_intensity_is_scaling 0x0030 0x0040 (by decide) (by decide)
  refine ⟨⟨by decide, by decide⟩, ?_, h.2.2.1 (by decide)⟩
  rw [h.2.1]
  norm_num

/-- C18: the indices the four decoders read are 4..7 (`get1d`), 8..9 (`get1p`),
10..137 (`get3d`, four per pass, 32 passes) and 138..201 (`get3p`, two per
pass, 32 passes): together 4..201 without repetition, all inside the 256-byte
buffer and none of them 0, 1 or 255.  On a frame `get_data` returned every one
of these reads succeeds, each decoder returns, and what it returns is computed
from the bytes at its own indices; the two loops complete on a buffer exactly
when all their indices are inside it. -/
theorem C18_decoder_reads_in_frame (fuel : Nat) (out3d : Nat → ℚ) (out3p : Nat → Nat)
    (s s1 : State) (h : get_data fuel s = some s1) :
    (get1d_reads = List.range' 4 4 ∧ get1p_reads = List.range' 8 2
        ∧ get3d_reads = List.range' 10 128 ∧ get3p_reads = List.range' 138 64)
      ∧ (get1d_reads ++ get1p_reads ++ get3d_reads ++ get3p_reads).Nodup
      ∧ (∀ i ∈ get1d_reads ++ get1p_reads ++ get3d_reads ++ get3p_reads,
          i < MMToF10_DATA_SIZE ∧ i ≠ 0 ∧ i ≠ 1 ∧ i ≠ 255)
      ∧ MMToF10_DATA_SIZE ≤ s1.buffer.length
      ∧ (∃ b4 b5 b6 b7 : Nat,
          get1d_reads.map (fun i => s1.buffer[i]?) = [some b4, some b5, some b6, some b7]
            ∧ get1d fuel s = some (range_value (raw32 b4 b5 b6 b7), s1))
      ∧ (∃ b8 b9 : Nat,
          get1p_reads.map (fun i => s1.buffer[i]?) = [some b8, some b9]
            ∧ get1p fuel s = some (intensity_value (raw16 b8 b9), s1))
      ∧ (∃ out1 : Nat → ℚ, get3d fuel out3d s = some (out1, s1)
          ∧ ∀ k, k < MMToF10_PIXELS → ∃ b0 b1 b2 b3 : Nat,
            (get3d_reads_at k).map (fun i => s1.buffer[i]?)
                = [some b0, some b1, some b2, some b3]
              ∧ out1 k = range_value (raw32 b0 b1 b2 b3))
      ∧ (∃ out1 : Nat → Nat, get3p fuel out3p s = some (out1, s1)
          ∧ ∀ k, k < MMToF10_PIXELS → ∃ hi lo : Nat,
            (get3p_reads_at k).map (fun i => s1.buffer[i]?) = [some hi, some lo]
              ∧ out1 k = raw16 hi lo)
      ∧ (∀ buffer : List Nat, (get3d_loop buffer OFFSET_3D 0 out3d).isSome = true
          ↔ ∀ i ∈ get3d_reads, i < buffer.length)
      ∧ (∀ buffer : List Nat, (get3p_loop buffer (4 * 8 * 4 + 10) 0 out3p).isSome = true
          ↔ ∀ i ∈ get3p_reads, i < buffer.length) := by
  have hb : ∀ i, i < 256 → ∃ b, s1.buffer[i]? = some b ∧ b < 256 :=
    fun i hi => get_data_byte fuel s s1 h i hi
  refine ⟨⟨rfl, rfl, get3d_reads_eq, get3p_reads_eq⟩, ?_, ?_, ?_, ?_, ?_, ?_, ?_, ?_, ?_⟩
  · rw [all_reads_eq]
    exact List.nodup_range' 4 198
  · intro i hi
    rw [all_reads_eq, List.mem_range'_1] at hi
    have : MMToF10_DATA_SIZE = 256 := rfl
    omega
  · obtain ⟨s0, e, _⟩ := get_data_some fuel s s1 h
    rw [e]
    simp only [spiTransferBuf, List.length_append, received_length]
    exact Nat.le_add_right _ _
  · obtain ⟨b4, e4, _⟩ := hb 4 (by decide)
    obtain ⟨b5, e5, _⟩ := hb 5 (by decide)
    obtain ⟨b6, e6, _⟩ := hb 6 (by decide)
    obtain ⟨b7, e7, _⟩ := hb 7 (by decide)
    refine ⟨b4, b5, b6, b7, ?_, get1d_value fuel s s1 b4 b5 b6 b7 h e4 e5 e6 e7⟩
    simp only [get1d_reads, List.map_cons, List.map_nil, e4, e5, e6, e7]
  · obtain ⟨b8, e8, _⟩ := hb 8 (by decide)
    obtain ⟨b9, e9, _⟩ := hb 9 (by decide)
    refine ⟨b8, b9, ?_, get1p_value fuel s s1 b8 b9 h e8 e9⟩
    simp only [get1p_reads, List.map_cons, List.map_nil, e8, e9]
  · obtain ⟨out1, hrun, hcell, _⟩ := get3d_cells fuel out3d s s1 h
    refine ⟨out1, hrun, ?_⟩
    intro k hk
    obtain ⟨b0, b1, b2, b3, e0, e1, e2, e3, hv⟩ := hcell k hk
    refine ⟨b0, b1, b2, b3, ?_, hv⟩
    simp only [get3d_reads_at, OFFSET_3D, sizeof_uint32_t, List.map_cons, List.map_nil, e0, e1,
      e2, e3]
  · obtain ⟨out1, hrun, hcell, _⟩ := get3p_cells fuel out3p s s1 h
    refine ⟨out1, hrun, ?_⟩
    intro k hk
    obtain ⟨hi, e0, _⟩ := hb (138 + 2 * k) (by
      have : MMToF10_PIXELS = 32 := rfl
      omega)
    obtain ⟨lo, e1, _⟩ := hb (139 + 2 * k) (by
      have : MMToF10_PIXELS = 32 := rfl
      omega)
    refine ⟨hi, lo, ?_, hcell k hi lo hk e0 e1⟩
    have e1b : s1.buffer[138 + 2 * k + 1]? = some lo := by
      have : 138 + 2 * k + 1 = 139 + 2 * k := by omega
      rw [this]
      exact e1
    simp only [get3p_reads_at, sizeof_uint16_t, List.map_cons, List.map_nil]
    rw [e0, e1b]
  · intro buffer
    have hl := get3d_loop_isSome buffer 32 0 0 out3d rfl
    have hl2 : (get3d_loop buffer OFFSET_3D 0 out3d).isSome = true ↔ 138 ≤ buffer.length := by
      rw [show OFFSET_3D = 10 + 4 * 0 from rfl, hl]
      constructor
      · rintro (h0 | h0)
        · omega
        · exact h0
      · exact Or.inr
    rw [hl2, get3d_reads_eq]
    constructor
    · intro hlen i hi
      rw [List.mem_range'_1] at hi
      omega
    · intro hall
      have := hall 137 (by rw [List.mem_range'_1]; omega)
      omega
  · intro buffer
    have hl := get3p_loop_isSome buffer 32 0 0 out3p rfl
    have hl2 : (get3p_loop buffer (4 * 8 * 4 + 10) 0 out3p).isSome = true
        ↔ 202 ≤ buffer.length := by
      rw [show 4 * 8 * 4 + 10 = 138 + 2 * 0 from rfl, hl]
      constructor
      · rintro (h0 | h0)
        · omega
        · exact h0
      · exact Or.inr
    rw [hl2, get3p_reads_eq]
    constructor
    · intro hlen i hi
      rw [List.mem_range'_1] at hi
      omega
    · intro hall
      have := hall 201 (by rw [List.mem_range'_1]; omega)
      omega

/-- C18, at the frame of `goodLine`: the four decoders return. -/
theorem C18_decoder_reads_in_frame_witness :
    get_data 1 (idle goodLine) = some (spiTransferBuf MMToF10_DATA_SIZE (idle goodLine))
      ∧ MMToF10_DATA_SIZE ≤ (spiTransferBuf MMToF10_DATA_SIZE (idle goodLine)).buffer.length
      ∧ (∃ b4 b5 b6 b7 : Nat, get1d 1 (idle goodLine) = some (range_value (raw32 b4 b5 b6 b7),
          spiTransferBuf MMToF10_DATA_SIZE (idle goodLine)))
      ∧ (∃ out1 : Nat → Nat, get3p 1 (fun _ => 0) (idle goodLine)
          = some (out1, spiTransferBuf MMToF10_DATA_SIZE (idle goodLine))) := by
  have hret := idle_returns goodLine rfl rfl
  have h := C18_decoder_reads_in_frame 1 (fun _ => 0) (fun _ => 0) (idle goodLine) _ hret
  obtain ⟨_, _, _, hlen, ⟨b4, b5, b6, b7, _, h1d⟩, _, _, ⟨out1, h3p, _⟩, _, _⟩ := h
  exact ⟨hret, hlen, ⟨b4, b5, b6, b7, h1d⟩, ⟨out1, h3p⟩⟩

end MMToF10
